import Mathlib

/-!
# vault-init: the health-driven bootstrap loop of `vault-init/main.go`

The Go program polls the vault's health endpoint and, depending on the status
code, initialises the vault (storing the KMS-encrypted init response in a
bucket object `keys.json`) or unseals it (reading the object back, decrypting it
and submitting the key shares).

The embedding is shallow.  Every call that leaves the process (HTTP, Cloud KMS,
Cloud Storage, the logger, the sleep) is an operation `Op`; a Go function is a
tree `Prog` of such operations whose branches are the Go control flow; a
`World` answers the operations, and running a program in a world yields the
trace of events (operation plus answer), the final world state and the value.
Pure library calls are functions: `encoding/base64` is modelled in full,
`encoding/json` is a parameter `JSON` of the programs.
-/

namespace VaultInit

/-! ## Bytes, errors, results -/

/-- One octet. Go's `byte`. -/
abbrev Byte := Fin 256

/-- Go's `[]byte` and Go's `string` (a Go string is a sequence of bytes). -/
abbrev Bytes := List Byte

/-- The text of a Go `error`, as `log.Println(err)` prints it. -/
abbrev Err := String

/-- Go's `(value, err)` return pair: either the value (`err == nil`) or the error. -/
inductive Result (α : Type) : Type where
  | ok (val : α)
  | error (err : Err)
  deriving DecidableEq, Repr

/-- The octet with value `n mod 256`; Go's conversion `byte(n)`. -/
def byte (n : Nat) : Byte := ⟨n % 256, Nat.mod_lt _ (by decide)⟩

/-- The bytes of an ASCII string literal. -/
def ascii (s : String) : Bytes := s.toList.map (fun c => byte c.toNat)

/-! ## `encoding/base64`, `StdEncoding` -/

namespace base64

/-- The standard alphabet, `encodeStd` of `encoding/base64`. -/
def encodeStd : Bytes :=
  ascii "ABCDEFGHIJKLMNOPQRSTUVWXYZabcdefghijklmnopqrstuvwxyz0123456789+/"

/-- The padding character `=`. -/
def StdPadding : Byte := 61

/-- The table `enc.encode[v]`. -/
def encode (v : Nat) : Byte := encodeStd.getD v 0

/-- The table `enc.decodeMap[c]`: the index of `c` in the alphabet, `0xFF` for a
character outside it. -/
def decodeMap (c : Byte) : Nat :=
  if encodeStd.indexOf c < 64 then encodeStd.indexOf c else 0xFF

/-- `StdEncoding.EncodeToString`: three bytes become four characters, a last group
of one or two bytes is padded with `=`. -/
def EncodeToString : Bytes → Bytes
  | [] => []
  | [a] =>
    let val := a.val <<< 16
    [encode (val >>> 18 &&& 0x3F), encode (val >>> 12 &&& 0x3F), StdPadding, StdPadding]
  | [a, b] =>
    let val := a.val <<< 16 ||| b.val <<< 8
    [encode (val >>> 18 &&& 0x3F), encode (val >>> 12 &&& 0x3F),
     encode (val >>> 6 &&& 0x3F), StdPadding]
  | a :: b :: c :: rest =>
    let val := a.val <<< 16 ||| b.val <<< 8 ||| c.val
    encode (val >>> 18 &&& 0x3F) :: encode (val >>> 12 &&& 0x3F) ::
      encode (val >>> 6 &&& 0x3F) :: encode (val &&& 0x3F) :: EncodeToString rest

/-- The characters `\n` and `\r`, which the decoder skips. -/
def isNewline (c : Byte) : Bool := c = 10 || c = 13

/-- The decoder's loop `for si < len(src) && (src[si] == '\n' || src[si] == '\r')`. -/
def skipNewlines : Bytes → Bytes
  | [] => []
  | c :: rest => if isNewline c then skipNewlines rest else c :: rest

/-- The end of `decodeQuantum`: the `dlen` collected 6-bit values are packed into
`val` and the first `dlen - 1` of its three bytes are written. -/
def quantumBytes (dbuf : List Nat) (dlen : Nat) : Bytes :=
  let val := dbuf.getD 0 0 <<< 18 ||| dbuf.getD 1 0 <<< 12 ||| dbuf.getD 2 0 <<< 6 ||| dbuf.getD 3 0
  ([byte (val >>> 16), byte (val >>> 8), byte (val >>> 0)] : Bytes).take (dlen - 1)

/-- The text of `CorruptInputError` (the offset is left out). -/
def corrupt : Err := "illegal base64 data"

/-- The loop of `Encoding.Decode` over `decodeQuantum`, with `dbuf` the 6-bit values
collected so far in the current quantum.  A character of the alphabet is collected
(four of them close the quantum), a newline is skipped, any other character but
`=` is an error; `=` is an error after fewer than two values, after two values a
second `=` must follow, and after the padding only newlines may follow.  The input
may end only between quanta (the encoding is padded). -/
def decodeFrom : Bytes → List Nat → Result Bytes
  | [], dbuf => if dbuf.length = 0 then .ok [] else .error corrupt
  | c :: rest, dbuf =>
    if decodeMap c ≠ 0xFF then
      let dbuf1 := dbuf ++ [decodeMap c]
      if dbuf1.length = 4 then
        match decodeFrom rest [] with
        | .ok out => .ok (quantumBytes dbuf1 4 ++ out)
        | .error e => .error e
      else decodeFrom rest dbuf1
    else if isNewline c then decodeFrom rest dbuf
    else if c ≠ StdPadding then .error corrupt
    else if dbuf.length < 2 then .error corrupt
    else
      let afterPad : Option Bytes :=
        if dbuf.length = 2 then
          match skipNewlines rest with
          | [] => none
          | d :: rest1 => if d ≠ StdPadding then none else some rest1
        else some rest
      match afterPad with
      | none => .error corrupt
      | some rest2 =>
        if skipNewlines rest2 ≠ [] then .error corrupt
        else .ok (quantumBytes dbuf dbuf.length)

/-- `StdEncoding.DecodeString`. -/
def DecodeString (s : Bytes) : Result Bytes := decodeFrom s []

end base64

/-! ## Data model (main.go, lines 32-53) -/

/-- Go's `initRequest`. -/
structure initRequest where
  SecretShares : Int
  SecretThreshold : Int
  deriving DecidableEq, Repr

/-- Go's `initResponse`. -/
structure initResponse where
  Keys : List Bytes
  KeysBase64 : List Bytes
  RootToken : Bytes
  deriving DecidableEq, Repr

/-- Go's `unsealRequest`. -/
structure unsealRequest where
  Key : Bytes
  Reset : Bool
  deriving DecidableEq, Repr

/-- Go's `unsealResponse`. -/
structure unsealResponse where
  Sealed : Bool
  T : Int
  N : Int
  Progress : Int
  deriving DecidableEq, Repr

/-- The four `encoding/json` calls of the program, each at the Go type it is used
at: `json.Marshal(&ir)`, `json.Marshal(&ur)`, `json.Unmarshal(px, &ir)` and
`json.Unmarshal(b, &unr)` (both into a zero value). -/
structure JSON where
  MarshalInitRequest : initRequest → Result Bytes
  MarshalUnsealRequest : unsealRequest → Result Bytes
  UnmarshalInitResponse : Bytes → Result initResponse
  UnmarshalUnsealResponse : Bytes → Result unsealResponse

/-! ## `net/http` values -/

/-- What of an `*http.Request` the program sets: method, URL and body. -/
structure Request where
  Method : String
  URL : String
  Body : Bytes
  deriving DecidableEq, Repr

/-- What of an `*http.Response` the program reads: the status code, and what
`ioutil.ReadAll(response.Body)` returns. -/
structure Response where
  StatusCode : Int
  Body : Result Bytes
  deriving DecidableEq, Repr

/-- `http.NewRequest`.  It fails on an invalid method or an unparsable URL; the
program passes the literal `"PUT"` and a literal URL, which it accepts. -/
def NewRequest (method url : String) (body : Bytes) : Result Request :=
  .ok { Method := method, URL := url, Body := body }

/-! ## Operations, programs, worlds -/

/-- The two workflows `main` dispatches to. -/
inductive Fn where
  | initializer
  | unsealer
  deriving DecidableEq, Repr

/-- The calls that leave the process.  `enter` is a ghost operation that marks the
entry of a workflow function; it has no counterpart in the Go text. -/
inductive Op where
  | enter (f : Fn)
  | log (line : String)
  | sleep (seconds : Nat)
  | httpGet (url : String)
  | httpDo (req : Request)
  | googleDefaultClient
  | cloudkmsNew
  | kmsEncrypt (keyName : String) (plaintext : Bytes)
  | kmsDecrypt (keyName : String) (ciphertext : Bytes)
  | storageNewWriter (bucket object : String)
  | storageWrite (bucket object : String) (data : Bytes)
  | storageWriterClose (bucket object : String)
  | storageNewReader (bucket object : String)
  | storageReadAll (bucket object : String)
  | storageReaderClose (bucket object : String)
  deriving DecidableEq, Repr

/-- What each operation returns to the program. -/
def Resp : Op → Type
  | .enter _ => Unit
  | .log _ => Unit
  | .sleep _ => Unit
  | .httpGet _ => Result Response
  | .httpDo _ => Result Response
  | .googleDefaultClient => Result Unit
  | .cloudkmsNew => Result Unit
  | .kmsEncrypt _ _ => Result Bytes
  | .kmsDecrypt _ _ => Result Bytes
  | .storageNewWriter _ _ => Unit
  | .storageWrite _ _ _ => Result Nat
  | .storageWriterClose _ _ => Result Unit
  | .storageNewReader _ _ => Result Unit
  | .storageReadAll _ _ => Result Bytes
  | .storageReaderClose _ _ => Result Unit

/-- An operation together with the answer it got. -/
inductive Event where
  | enter (f : Fn)
  | log (line : String)
  | sleep (seconds : Nat)
  | httpGet (url : String) (res : Result Response)
  | httpDo (req : Request) (res : Result Response)
  | googleDefaultClient (res : Result Unit)
  | cloudkmsNew (res : Result Unit)
  | kmsEncrypt (keyName : String) (plaintext : Bytes) (res : Result Bytes)
  | kmsDecrypt (keyName : String) (ciphertext : Bytes) (res : Result Bytes)
  | storageNewWriter (bucket object : String)
  | storageWrite (bucket object : String) (data : Bytes) (res : Result Nat)
  | storageWriterClose (bucket object : String) (res : Result Unit)
  | storageNewReader (bucket object : String) (res : Result Unit)
  | storageReadAll (bucket object : String) (res : Result Bytes)
  | storageReaderClose (bucket object : String) (res : Result Unit)
  deriving DecidableEq, Repr

/-- The event of operation `o` answered with `r`. -/
def Event.ofOp : (o : Op) → Resp o → Event
  | .enter f, _ => .enter f
  | .log l, _ => .log l
  | .sleep n, _ => .sleep n
  | .httpGet u, r => .httpGet u r
  | .httpDo q, r => .httpDo q r
  | .googleDefaultClient, r => .googleDefaultClient r
  | .cloudkmsNew, r => .cloudkmsNew r
  | .kmsEncrypt k p, r => .kmsEncrypt k p r
  | .kmsDecrypt k c, r => .kmsDecrypt k c r
  | .storageNewWriter b o, _ => .storageNewWriter b o
  | .storageWrite b o d, r => .storageWrite b o d r
  | .storageWriterClose b o, r => .storageWriterClose b o r
  | .storageNewReader b o, r => .storageNewReader b o r
  | .storageReadAll b o, r => .storageReadAll b o r
  | .storageReaderClose b o, r => .storageReaderClose b o r

/-- A Go function body: it returns (`done`) or performs an operation and goes on
with its answer (`call`). -/
inductive Prog (α : Type) : Type where
  | done (a : α)
  | call (o : Op) (k : Resp o → Prog α)

/-- Sequencing: run `p`, then `f` on its value. -/
def Prog.bind {α β : Type} : Prog α → (α → Prog β) → Prog β
  | .done a, f => f a
  | .call o k, f => .call o (fun r => (k r).bind f)

/-- The environment of the process: a state and the answer to every operation. -/
structure World (σ : Type) where
  handle : σ → (o : Op) → Resp o × σ

/-- What a run leaves behind. -/
structure Outcome (σ α : Type) where
  trace : List Event
  state : σ
  value : α

/-- Running a program in a world from a state. -/
def Prog.run {σ α : Type} (w : World σ) : Prog α → σ → Outcome σ α
  | .done a, s => { trace := [], state := s, value := a }
  | .call o k, s =>
    let out := (k (w.handle s o).1).run w (w.handle s o).2
    { trace := Event.ofOp o (w.handle s o).1 :: out.trace, state := out.state, value := out.value }

/-- The statement `log.Println(line)` (or `log.Printf`), then `k`. -/
def say {α : Type} (line : String) (k : Prog α) : Prog α :=
  .call (.log line) fun _ => k

/-! ## The program (main.go) -/

/-- The health endpoint polled by `main` (line 78). -/
def healthURL : String := "https://127.0.0.1:8200/v1/sys/health"

/-- The init endpoint (line 117). -/
def initURL : String := "https://127.0.0.1:8200/v1/sys/init"

/-- The unseal endpoint (line 250). -/
def unsealURL : String := "https://127.0.0.1:8200/v1/sys/unseal"

/-- The value of `keyName` (lines 153-154 and 213-214). -/
def keyName : String :=
  "projects/hightowerlabs/locations/global/keyRings/vault/cryptoKeys/vault-init"

/-- The object name both workflows use (lines 170 and 186). -/
def keysObject : String := "keys.json"

/-- The output of `log.Printf("Non 200 status code: %s", response.StatusCode)`: the verb
`%s` applied to an `int` prints `%!s(int=N)`. -/
def nonOKLine (code : Int) : String :=
  "Non 200 status code: %!s(int=" ++ toString code ++ ")"

/-- The output of `log.Printf("Keys written to gs://%s/%s", bucketName, "keys.json")`. -/
def keysWrittenLine (bucketName : String) : String :=
  "Keys written to gs://" ++ bucketName ++ "/" ++ keysObject

/-- Lines 140-165 of Go's `initialize`: the KMS client is built and the body is
encrypted, its base64 text being the plaintext of the request.  The value is the
ciphertext, or `none` when the function has logged an error and returned. -/
def initialize_encrypt (body : Bytes) : Prog (Option Bytes) :=
  .call .googleDefaultClient fun r =>
  match r with
  | .error err => say err (.done none)
  | .ok _ =>
  .call .cloudkmsNew fun r =>
  match r with
  | .error err => say err (.done none)
  | .ok _ =>
  let er := base64.EncodeToString body
  say "Encrypting Vault init keys" <|
  .call (.kmsEncrypt keyName er) fun r =>
  match r with
  | .error err => say err (.done none)
  | .ok ciphertext => .done (some ciphertext)

/-- Lines 167-179 of Go's `initialize`, with the deferred `w.Close()` at the end. -/
def initialize_write (bucketName : String) (ciphertext : Bytes) : Prog Unit :=
  .call (.storageNewWriter bucketName keysObject) fun _ =>
  .call (.storageWrite bucketName keysObject ciphertext) fun r =>
  let finish : Prog Unit :=
    say (keysWrittenLine bucketName) <|
    say "Initialization complete." <|
    .call (.storageWriterClose bucketName keysObject) fun _ => .done ()
  match r with
  | .error err => say err finish
  | .ok _ => finish

/-- Go's `initialize` (lines 105-180); the Go name is a reserved word here. -/
def initializeVault (J : JSON) (bucketName : String) : Prog Unit :=
  .call (.enter .initializer) fun _ =>
  let ir : initRequest := { SecretShares := 1, SecretThreshold := 1 }
  match J.MarshalInitRequest ir with
  | .error err => say err (.done ())
  | .ok data =>
  match NewRequest "PUT" initURL data with
  | .error err => say err (.done ())
  | .ok request =>
  .call (.httpDo request) fun r =>
  match r with
  | .error err => say err (.done ())
  | .ok response =>
  match response.Body with
  | .error err => say err (.done ())
  | .ok body =>
  if response.StatusCode ≠ 200 then say (nonOKLine response.StatusCode) (.done ())
  else
  (initialize_encrypt body).bind fun r =>
  match r with
  | none => .done ()
  | some ciphertext => initialize_write bucketName ciphertext

/-- Lines 200-232 of Go's `unseal`: the KMS client is built, the stored bytes are
decrypted and the plaintext of the answer is base64-decoded.  The value is `px`, or
`none` when the function has logged an error and returned. -/
def unseal_decrypt (data : Bytes) : Prog (Option Bytes) :=
  .call .googleDefaultClient fun r =>
  match r with
  | .error err => say err (.done none)
  | .ok _ =>
  .call .cloudkmsNew fun r =>
  match r with
  | .error err => say err (.done none)
  | .ok _ =>
  .call (.kmsDecrypt keyName data) fun r =>
  match r with
  | .error err => say err (.done none)
  | .ok plaintext =>
  match base64.DecodeString plaintext with
  | .error err => say err (.done none)
  | .ok px => .done (some px)

/-- The loop of Go's `unseal` (lines 239-283) over the remaining keys; every `break`
ends it. -/
def unseal_loop (J : JSON) : List Bytes → Prog Unit
  | [] => .done ()
  | key :: rest =>
    let ur : unsealRequest := { Key := key, Reset := false }
    match J.MarshalUnsealRequest ur with
    | .error err => say err (.done ())
    | .ok b =>
    match NewRequest "PUT" unsealURL b with
    | .error err => say err (.done ())
    | .ok request =>
    .call (.httpDo request) fun r =>
    match r with
    | .error err => say err (.done ())
    | .ok response =>
    if response.StatusCode ≠ 200 then say (nonOKLine response.StatusCode) (.done ())
    else
    match response.Body with
    | .error err => say err (.done ())
    | .ok b =>
    match J.UnmarshalUnsealResponse b with
    | .error err => say err (.done ())
    | .ok unr =>
    if !unr.Sealed then say "Unseal complete." (.done ())
    else unseal_loop J rest

/-- Go's `unseal` (lines 182-284); the Go name is a reserved word here.  The
deferred `r.Close()` runs on every return after line 192. -/
def unsealVault (J : JSON) (bucketName : String) : Prog Unit :=
  .call (.enter .unsealer) fun _ =>
  .call (.storageNewReader bucketName keysObject) fun r =>
  match r with
  | .error err => say err (.done ())
  | .ok _ =>
  let close : Prog Unit := .call (.storageReaderClose bucketName keysObject) fun _ => .done ()
  .call (.storageReadAll bucketName keysObject) fun r =>
  match r with
  | .error err => say err close
  | .ok data =>
  (unseal_decrypt data).bind fun r =>
  match r with
  | none => close
  | some px =>
  match J.UnmarshalInitResponse px with
  | .error err => say err close
  | .ok ir => (unseal_loop J ir.KeysBase64).bind fun _ => close

/-- The `switch response.StatusCode` of `main` (lines 85-98). -/
def dispatch (J : JSON) (bucketName : String) (statusCode : Int) : Prog Unit :=
  match statusCode with
  | 200 => say "Vault is initialized and unsealed." (.done ())
  | 429 => say "Vault is unsealed and in standby mode." (.done ())
  | 501 => say "Vault is not initialized. Initializing..." (initializeVault J bucketName)
  | 503 => say "Vault is sealed. Unsealing..." (unsealVault J bucketName)
  | _ => say "Vault is in an unknown state" (.done ())

/-- One pass through the body of the `for` of `main` (lines 78-101). -/
def pollCycle (J : JSON) (bucketName : String) : Prog Unit :=
  .call (.httpGet healthURL) fun r =>
  match r with
  | .error err => say err (.call (.sleep 10) fun _ => .done ())
  | .ok response =>
  (dispatch J bucketName response.StatusCode).bind fun _ =>
  say "Next check in 10 seconds." <|
  .call (.sleep 10) fun _ => .done ()

/-- The first `n` passes of the endless `for` of `main` (lines 77-102). -/
def mainLoop (J : JSON) (bucketName : String) : Nat → Prog Unit
  | 0 => .done ()
  | n + 1 => (pollCycle J bucketName).bind fun _ => mainLoop J bucketName n

/-! ## Reasoning about every run -/

/-- The property `post` holds of the trace and value of every run of the program,
whatever the operations answer. -/
def Prog.always {α : Type} : Prog α → (List Event → α → Prop) → Prop
  | .done a, post => post [] a
  | .call o k, post => ∀ r, (k r).always (fun T a => post (Event.ofOp o r :: T) a)

/-! ## A reference `encoding/json` for the four calls

The programs take the JSON codec as a parameter; the theorems about them hold for
every codec.  `json.reference` is one codec, used where a concrete environment is
run: a parser of the JSON grammar and the decoding rules of `encoding/json` for the
two response structs (keys match a field name up to ASCII case, a later member
overrides an earlier one, `null` leaves a field as it is, a value of the wrong kind
is an error). -/

namespace json

/-- A parsed JSON text.  Numbers keep their literal. -/
inductive Value where
  | null
  | bool (b : Bool)
  | number (literal : Bytes)
  | string (s : Bytes)
  | array (items : List Value)
  | object (members : List (Bytes × Value))

/-- JSON white space: space, tab, line feed, carriage return. -/
def isSpace (c : Byte) : Bool := c = 32 || c = 9 || c = 10 || c = 13

/-- The input without its leading white space. -/
def skipSpace : Bytes → Bytes
  | [] => []
  | c :: rest => if isSpace c then skipSpace rest else c :: rest

/-- The characters `0` to `9`. -/
def isDigit (c : Byte) : Bool := 48 ≤ c.val && c.val ≤ 57

/-- The value of a hexadecimal digit. -/
def hexVal (c : Byte) : Option Nat :=
  if 48 ≤ c.val && c.val ≤ 57 then some (c.val - 48)
  else if 97 ≤ c.val && c.val ≤ 102 then some (c.val - 87)
  else if 65 ≤ c.val && c.val ≤ 70 then some (c.val - 55)
  else none

/-- UTF-8 of a code point below `0x10000`. -/
def utf8 (n : Nat) : Bytes :=
  if n < 0x80 then [byte n]
  else if n < 0x800 then [byte (0xC0 + n / 64), byte (0x80 + n % 64)]
  else [byte (0xE0 + n / 4096), byte (0x80 + n / 64 % 64), byte (0x80 + n % 64)]

/-- The rest of a string literal after its opening quote: the unquoted text and what
follows the closing quote. -/
def stringBody : Bytes → Bytes → Option (Bytes × Bytes)
  | [], _ => none
  | c :: rest, acc =>
    if c = 34 then some (acc, rest)
    else if c.val < 32 then none
    else if c = 92 then
      match rest with
      | [] => none
      | e :: rest1 =>
        if e = 34 || e = 92 || e = 47 then stringBody rest1 (acc ++ [e])
        else if e = 98 then stringBody rest1 (acc ++ [8])
        else if e = 102 then stringBody rest1 (acc ++ [12])
        else if e = 110 then stringBody rest1 (acc ++ [10])
        else if e = 114 then stringBody rest1 (acc ++ [13])
        else if e = 116 then stringBody rest1 (acc ++ [9])
        else if e = 117 then
          match rest1 with
          | h1 :: h2 :: h3 :: h4 :: rest2 =>
            match hexVal h1, hexVal h2, hexVal h3, hexVal h4 with
            | some a, some b, some c, some d =>
              let n := a * 4096 + b * 256 + c * 16 + d
              if 0xD800 ≤ n && n < 0xE000 then stringBody rest2 (acc ++ utf8 0xFFFD)
              else stringBody rest2 (acc ++ utf8 n)
            | _, _, _, _ => none
          | _ => none
        else none
    else stringBody rest (acc ++ [c])

/-- The longest run of digits at the head of the input, and the rest. -/
def digits : Bytes → Bytes × Bytes
  | [] => ([], [])
  | c :: rest => if isDigit c then ((digits rest).1.cons c, (digits rest).2) else ([], c :: rest)

/-- A number literal at the head of the input: sign, integer part (no leading zero),
fraction, exponent. -/
def numberLiteral (input : Bytes) : Option (Bytes × Bytes) :=
  let (sign, r0) := match input with
    | c :: rest => if c = 45 then ([c], rest) else ([], c :: rest)
    | [] => ([], [])
  let (ip, r1) := digits r0
  if ip = [] then none
  else if ip.length > 1 && ip.head? = some 48 then none
  else
    let fracPart : Option (Bytes × Bytes) := match r1 with
      | c :: rest =>
        if c = 46 then
          (if (digits rest).1 = [] then none else some (c :: (digits rest).1, (digits rest).2))
        else some ([], r1)
      | [] => some ([], [])
    match fracPart with
    | none => none
    | some (fp, r2) =>
      let expPart : Option (Bytes × Bytes) := match r2 with
        | c :: rest =>
          if c = 101 || c = 69 then
            let (sg, r3) := match rest with
              | d :: rest1 => if d = 43 || d = 45 then ([d], rest1) else ([], d :: rest1)
              | [] => ([], [])
            (if (digits r3).1 = [] then none else some (c :: sg ++ (digits r3).1, (digits r3).2))
          else some ([], r2)
        | [] => some ([], [])
      match expPart with
      | none => none
      | some (ep, r3) => some (sign ++ ip ++ fp ++ ep, r3)

/-- The input after the literal `pre`, if it starts with it. -/
def dropPrefix (pre : Bytes) (input : Bytes) : Option Bytes :=
  if pre.isPrefixOf input then some (input.drop pre.length) else none

mutual
/-- One JSON value at the head of the input (after white space), and the rest. -/
def value : Nat → Bytes → Option (Value × Bytes)
  | 0, _ => none
  | fuel + 1, input =>
    match skipSpace input with
    | [] => none
    | c :: rest =>
      if c = 34 then
        match stringBody rest [] with
        | some (s, rest1) => some (.string s, rest1)
        | none => none
      else if c = 91 then
        match skipSpace rest with
        | d :: rest1 => if d = 93 then some (.array [], rest1) else items fuel rest []
        | [] => none
      else if c = 123 then
        match skipSpace rest with
        | d :: rest1 => if d = 125 then some (.object [], rest1) else members fuel rest []
        | [] => none
      else if c = 116 then (dropPrefix (ascii "rue") rest).map fun r => (.bool true, r)
      else if c = 102 then (dropPrefix (ascii "alse") rest).map fun r => (.bool false, r)
      else if c = 110 then (dropPrefix (ascii "ull") rest).map fun r => (.null, r)
      else
        match numberLiteral (c :: rest) with
        | some (lit, rest1) => some (.number lit, rest1)
        | none => none
/-- The items of an array after `[`, up to and including `]`. -/
def items : Nat → Bytes → List Value → Option (Value × Bytes)
  | 0, _, _ => none
  | fuel + 1, input, acc =>
    match value fuel input with
    | none => none
    | some (v, rest) =>
      match skipSpace rest with
      | c :: rest1 =>
        if c = 44 then items fuel rest1 (acc ++ [v])
        else if c = 93 then some (.array (acc ++ [v]), rest1)
        else none
      | [] => none
/-- The members of an object after `{`, up to and including `}`. -/
def members : Nat → Bytes → List (Bytes × Value) → Option (Value × Bytes)
  | 0, _, _ => none
  | fuel + 1, input, acc =>
    match skipSpace input with
    | q :: rest =>
      if q ≠ 34 then none
      else
        match stringBody rest [] with
        | none => none
        | some (key, rest1) =>
          match skipSpace rest1 with
          | c :: rest2 =>
            if c ≠ 58 then none
            else
              match value fuel rest2 with
              | none => none
              | some (v, rest3) =>
                match skipSpace rest3 with
                | d :: rest4 =>
                  if d = 44 then members fuel rest4 (acc ++ [(key, v)])
                  else if d = 125 then some (.object (acc ++ [(key, v)]), rest4)
                  else none
                | [] => none
          | [] => none
    | [] => none
end

/-- A whole JSON text: one value, then only white space. -/
def parse (input : Bytes) : Option Value :=
  match value (input.length + 1) input with
  | some (v, rest) => if skipSpace rest = [] then some v else none
  | none => none

/-- ASCII lower case of a byte. -/
def lower (c : Byte) : Byte := if 65 ≤ c.val && c.val ≤ 90 then byte (c.val + 32) else c

/-- Whether a member key names the struct field tagged `name`: equality up to ASCII
case. -/
def keyIs (name : String) (key : Bytes) : Bool := key.map lower = (ascii name).map lower

/-- The value of a run of decimal digits. -/
def natOfDigits (ds : Bytes) : Nat := ds.foldl (fun n c => 10 * n + (c.val - 48)) 0

/-- A number literal as a Go `int` (64 bits): an integer literal in range. -/
def intOf (literal : Bytes) : Result Int :=
  let out : Option Int :=
    match literal with
    | [] => none
    | c :: rest =>
      if c = 45 then
        (if rest.all isDigit && rest ≠ [] then some (- (natOfDigits rest : Int)) else none)
      else if (c :: rest).all isDigit then some (natOfDigits (c :: rest) : Int) else none
  match out with
  | some n =>
    if -9223372036854775808 ≤ n ∧ n ≤ 9223372036854775807 then .ok n
    else .error "json: cannot unmarshal number into Go value of type int"
  | none => .error "json: cannot unmarshal number into Go value of type int"

/-- Decoding into a Go `int` field. -/
def intField (old : Int) : Value → Result Int
  | .null => .ok old
  | .number literal => intOf literal
  | _ => .error "json: cannot unmarshal into Go value of type int"

/-- Decoding into a Go `bool` field. -/
def boolField (old : Bool) : Value → Result Bool
  | .null => .ok old
  | .bool b => .ok b
  | _ => .error "json: cannot unmarshal into Go value of type bool"

/-- Decoding into a Go `string` field. -/
def stringField (old : Bytes) : Value → Result Bytes
  | .null => .ok old
  | .string s => .ok s
  | _ => .error "json: cannot unmarshal into Go value of type string"

/-- Decoding the elements of an array into a Go `[]string`. -/
def stringItems : List Value → Result (List Bytes)
  | [] => .ok []
  | v :: rest =>
    match stringField [] v, stringItems rest with
    | .ok s, .ok out => .ok (s :: out)
    | .error e, _ => .error e
    | _, .error e => .error e

/-- Decoding into a Go `[]string` field. -/
def stringsField : Value → Result (List Bytes)
  | .null => .ok []
  | .array items => stringItems items
  | _ => .error "json: cannot unmarshal into Go value of type []string"

/-- The members of an object decoded, in order, into an `initResponse`. -/
def initResponseMembers : List (Bytes × Value) → initResponse → Result initResponse
  | [], ir => .ok ir
  | (key, v) :: rest, ir =>
    if keyIs "keys" key then
      match stringsField v with
      | .ok ks => initResponseMembers rest { ir with Keys := ks }
      | .error e => .error e
    else if keyIs "keys_base64" key then
      match stringsField v with
      | .ok ks => initResponseMembers rest { ir with KeysBase64 := ks }
      | .error e => .error e
    else if keyIs "root_token" key then
      match stringField ir.RootToken v with
      | .ok t => initResponseMembers rest { ir with RootToken := t }
      | .error e => .error e
    else initResponseMembers rest ir

/-- The members of an object decoded, in order, into an `unsealResponse`. -/
def unsealResponseMembers : List (Bytes × Value) → unsealResponse → Result unsealResponse
  | [], unr => .ok unr
  | (key, v) :: rest, unr =>
    if keyIs "sealed" key then
      match boolField unr.Sealed v with
      | .ok b => unsealResponseMembers rest { unr with Sealed := b }
      | .error e => .error e
    else if keyIs "t" key then
      match intField unr.T v with
      | .ok n => unsealResponseMembers rest { unr with T := n }
      | .error e => .error e
    else if keyIs "n" key then
      match intField unr.N v with
      | .ok n => unsealResponseMembers rest { unr with N := n }
      | .error e => .error e
    else if keyIs "progress" key then
      match intField unr.Progress v with
      | .ok n => unsealResponseMembers rest { unr with Progress := n }
      | .error e => .error e
    else unsealResponseMembers rest unr

/-- The call `json.Unmarshal(px, &ir)` with `ir` the zero `initResponse`. -/
def UnmarshalInitResponse (data : Bytes) : Result initResponse :=
  match parse data with
  | none => .error "invalid character in JSON input"
  | some .null => .ok { Keys := [], KeysBase64 := [], RootToken := [] }
  | some (.object members) =>
    initResponseMembers members { Keys := [], KeysBase64 := [], RootToken := [] }
  | some _ => .error "json: cannot unmarshal into Go value of type main.initResponse"

/-- The call `json.Unmarshal(b, &unr)` with `unr` the zero `unsealResponse`. -/
def UnmarshalUnsealResponse (data : Bytes) : Result unsealResponse :=
  match parse data with
  | none => .error "invalid character in JSON input"
  | some .null => .ok { Sealed := false, T := 0, N := 0, Progress := 0 }
  | some (.object members) =>
    unsealResponseMembers members { Sealed := false, T := 0, N := 0, Progress := 0 }
  | some _ => .error "json: cannot unmarshal into Go value of type main.unsealResponse"

/-- The decimal digits of a natural number. -/
def natText (n : Nat) : Bytes := (Nat.toDigits 10 n).map (fun c => byte c.toNat)

/-- The decimal text of an integer. -/
def intText : Int → Bytes
  | .ofNat n => natText n
  | .negSucc n => 45 :: natText (n + 1)

/-- A hexadecimal digit, lower case. -/
def hexDigit (n : Nat) : Byte := if n < 10 then byte (48 + n) else byte (87 + n)

/-- The bytes of a string as `json.Marshal` writes them between the quotes: the
quote, the backslash, the control characters and `<`, `>`, `&` are escaped; other
bytes are copied. -/
def escape : Bytes → Bytes
  | [] => []
  | c :: rest =>
    (if c = 34 then ascii "\\\""
     else if c = 92 then ascii "\\\\"
     else if c = 10 then ascii "\\n"
     else if c = 13 then ascii "\\r"
     else if c = 9 then ascii "\\t"
     else if c.val < 32 || c = 60 || c = 62 || c = 38 then
       ascii "\\u00" ++ [hexDigit (c.val / 16), hexDigit (c.val % 16)]
     else [c]) ++ escape rest

/-- `json.Marshal(&ir)` for an `initRequest`. -/
def MarshalInitRequest (ir : initRequest) : Result Bytes :=
  .ok (ascii "\x7b\"secret_shares\":" ++ intText ir.SecretShares ++
    ascii ",\"secret_threshold\":" ++ intText ir.SecretThreshold ++ ascii "\x7d")

/-- The text `json.Marshal(&ur)` writes for an `unsealRequest`. -/
def unsealRequestText (ur : unsealRequest) : Bytes :=
  ascii "\x7b\"key\":\"" ++ escape ur.Key ++ ascii "\",\"reset\":" ++
    (if ur.Reset then ascii "true" else ascii "false") ++ ascii "\x7d"

/-- `json.Marshal(&ur)` for an `unsealRequest`; it does not fail. -/
def MarshalUnsealRequest (ur : unsealRequest) : Result Bytes :=
  .ok (unsealRequestText ur)

/-- `json.Marshal` of an `unsealResponse`, as the modelled vault writes its reply. -/
def MarshalUnsealResponse (unr : unsealResponse) : Bytes :=
  ascii "\x7b\"sealed\":" ++ (if unr.Sealed then ascii "true" else ascii "false") ++
    ascii ",\"t\":" ++ intText unr.T ++ ascii ",\"n\":" ++ intText unr.N ++
    ascii ",\"progress\":" ++ intText unr.Progress ++ ascii "\x7d"

/-- The reference codec. -/
def reference : JSON where
  MarshalInitRequest := MarshalInitRequest
  MarshalUnsealRequest := MarshalUnsealRequest
  UnmarshalInitResponse := UnmarshalInitResponse
  UnmarshalUnsealResponse := UnmarshalUnsealResponse

end json

/-! ## Reading traces -/

/-- The operation of an event. -/
def Event.op : Event → Op
  | .enter f => .enter f
  | .log l => .log l
  | .sleep n => .sleep n
  | .httpGet u _ => .httpGet u
  | .httpDo q _ => .httpDo q
  | .googleDefaultClient _ => .googleDefaultClient
  | .cloudkmsNew _ => .cloudkmsNew
  | .kmsEncrypt k p _ => .kmsEncrypt k p
  | .kmsDecrypt k c _ => .kmsDecrypt k c
  | .storageNewWriter b o => .storageNewWriter b o
  | .storageWrite b o d _ => .storageWrite b o d
  | .storageWriterClose b o _ => .storageWriterClose b o
  | .storageNewReader b o _ => .storageNewReader b o
  | .storageReadAll b o _ => .storageReadAll b o
  | .storageReaderClose b o _ => .storageReaderClose b o

/-- A call to the key-management service: building its client, encrypting, decrypting. -/
def Event.isKMS : Event → Bool
  | .googleDefaultClient _ => true
  | .cloudkmsNew _ => true
  | .kmsEncrypt _ _ _ => true
  | .kmsDecrypt _ _ _ => true
  | _ => false

/-- A call to the object store. -/
def Event.isStorage : Event → Bool
  | .storageNewWriter _ _ => true
  | .storageWrite _ _ _ _ => true
  | .storageWriterClose _ _ _ => true
  | .storageNewReader _ _ _ => true
  | .storageReadAll _ _ _ => true
  | .storageReaderClose _ _ _ => true
  | _ => false

/-- A call that writes to the object store: opening a writer, writing, closing it. -/
def Event.isPut : Event → Bool
  | .storageNewWriter _ _ => true
  | .storageWrite _ _ _ _ => true
  | .storageWriterClose _ _ _ => true
  | _ => false

/-- A request sent with `httpClient.Do`. -/
def Event.isSubmit : Event → Bool
  | .httpDo _ _ => true
  | _ => false

/-- A line written to the log. -/
def Event.isLog : Event → Bool
  | .log _ => true
  | _ => false

/-- The requests sent with `httpClient.Do`, in order. -/
def submitted (T : List Event) : List Request :=
  T.filterMap fun e => match e with
    | .httpDo req _ => some req
    | _ => none

/-- The answers to the requests sent with `httpClient.Do`, in order. -/
def replies (T : List Event) : List (Result Response) :=
  T.filterMap fun e => match e with
    | .httpDo _ res => some res
    | _ => none

/-- The log entry an error return value causes: `if err != nil { log.Println(err) }`. -/
def errLog {α : Type} : Result α → List Event
  | .error err => [.log err]
  | .ok _ => []

/-- The workflow an event enters, if it is the entry of one. -/
def enteredWorkflow : Event → Option Fn
  | .enter f => some f
  | _ => none

/-- The status code an answered health poll returned. -/
def polledStatus : Event → Option Int
  | .httpGet _ (.ok response) => some response.StatusCode
  | _ => none

/-- The table of section 4.1: the workflow a status code calls for. -/
def workflowFor (code : Int) : Option Fn :=
  if code = 501 then some .initializer else if code = 503 then some .unsealer else none

/-- The reading of `keys.json` failed: the reader could not be opened (the object is
absent, or the store did not answer), or reading it returned an error. -/
def Event.isGetFailure : Event → Bool
  | .storageNewReader _ _ (.error _) => true
  | .storageReadAll _ _ (.error _) => true
  | _ => false

/-- The run has a failed read of the object store. -/
def getFails (T : List Event) : Bool := T.any Event.isGetFailure

/-- The sealing failed: the client of the key-management service could not be built,
or the call of `Encrypt` returned an error. -/
def Event.isSealFailure : Event → Bool
  | .googleDefaultClient (.error _) => true
  | .cloudkmsNew (.error _) => true
  | .kmsEncrypt _ _ (.error _) => true
  | _ => false

/-- The run has a failed sealing. -/
def sealFails (T : List Event) : Bool := T.any Event.isSealFailure

/-- The opening failed: the client of the key-management service could not be built,
the call of `Decrypt` returned an error, or the plaintext it returned is not valid
base64. -/
def Event.isOpenFailure : Event → Bool
  | .googleDefaultClient (.error _) => true
  | .cloudkmsNew (.error _) => true
  | .kmsDecrypt _ _ (.error _) => true
  | .kmsDecrypt _ _ (.ok plaintext) =>
    match base64.DecodeString plaintext with
    | .error _ => true
    | .ok _ => false
  | _ => false

/-- The run has a failed opening. -/
def openFails (T : List Event) : Bool := T.any Event.isOpenFailure

/-- The event is a decrypt call answered with a text whose base64 decoding unmarshals
to `ir`. -/
def Event.decryptsTo (J : JSON) (ir : initResponse) : Event → Bool
  | .kmsDecrypt _ _ (.ok plaintext) =>
    match base64.DecodeString plaintext with
    | .ok px => decide (J.UnmarshalInitResponse px = .ok ir)
    | .error _ => false
  | _ => false

/-- The run decrypted the stored material to `ir`. -/
def decryptedTo (J : JSON) (T : List Event) (ir : initResponse) : Bool :=
  T.any (Event.decryptsTo J ir)

/-! ## The vault's replies to unseal requests -/

/-- A reply with a non-success status, or one that carries `sealed = false`. -/
def replyStops (J : JSON) : Result Response → Bool
  | .ok ⟨code, .ok body⟩ =>
    code ≠ 200 ||
      (match J.UnmarshalUnsealResponse body with
       | .ok unr => !unr.Sealed
       | .error _ => false)
  | .ok ⟨code, .error _⟩ => code ≠ 200
  | .error _ => false

/-- A reply of the vault: a response arrived, and one with status 200 has a body
that reads and decodes as an `unsealResponse`. -/
def vaultReply (J : JSON) : Result Response → Bool
  | .ok ⟨code, .ok body⟩ =>
    code ≠ 200 ||
      (match J.UnmarshalUnsealResponse body with
       | .ok _ => true
       | .error _ => false)
  | .ok ⟨code, .error _⟩ => code ≠ 200
  | .error _ => false

/-- The index, counting from 1, of the first reply that stops the unsealing. -/
def firstStop (J : JSON) : List (Result Response) → Option Nat
  | [] => none
  | r :: rs => if replyStops J r then some 1 else (firstStop J rs).map (· + 1)

/-- The least index (counting from 1) of a reply that stops the unsealing, and `n`
when no reply does. -/
def stopIndex (J : JSON) (rs : List (Result Response)) (n : Nat) : Nat :=
  (firstStop J rs).getD n

/-- The request `unseal` builds for one key share, `marshal` giving the text that
`json.Marshal` writes for the `unsealRequest`. -/
def unsealRequestOf (marshal : unsealRequest → Bytes) (key : Bytes) : Request :=
  { Method := "PUT", URL := unsealURL, Body := marshal { Key := key, Reset := false } }

/-! ## Worlds: replaying a trace, and the key-management service -/

/-- The state a world is in after the operations of a trace. -/
def World.replay {σ : Type} (w : World σ) : σ → List Event → σ
  | s, [] => s
  | s, e :: T => w.replay (w.handle s e.op).2 T

/-- Every event of the trace carries the answer the world gives, from `s` on. -/
def World.answers {σ : Type} (w : World σ) : σ → List Event → Prop
  | _, [] => True
  | s, e :: T => e = Event.ofOp e.op (w.handle s e.op).1 ∧ w.answers (w.handle s e.op).2 T

/-- The key-management service is consistent: decrypting, in any state, a ciphertext
that encrypting a text `x` returned in some state, returns `x`. -/
def World.kmsConsistent {σ : Type} (w : World σ) : Prop :=
  ∀ (s : σ) (k : String) (x c : Bytes), (w.handle s (.kmsEncrypt k x)).1 = .ok c →
    ∀ s2 : σ, (w.handle s2 (.kmsDecrypt k c)).1 = .ok x

/-- The key-management service is available: its client can be built in any state. -/
def World.kmsAvailable {σ : Type} (w : World σ) : Prop :=
  ∀ s : σ, (w.handle s .googleDefaultClient).1 = .ok () ∧ (w.handle s .cloudkmsNew).1 = .ok ()

/-! ## A model of the environment: vault, key-management service, object store -/

/-- The parameters of the modelled environment. -/
structure Env where
  /-- The body the vault answers a successful init request with. -/
  initBody : Bytes
  /-- The number of valid shares that unseal the vault. -/
  threshold : Nat
  /-- Whether the body of an unseal request carries a valid share. -/
  validShare : Bytes → Bool
  /-- The body the vault writes for an unseal reply. -/
  replyBody : unsealResponse → Bytes
  /-- The ciphertext the key-management service returns for a text. -/
  encrypt : Bytes → Bytes
  /-- The text the key-management service returns for a ciphertext. -/
  decrypt : Bytes → Result Bytes
  /-- The fault schedule: whether the operation performed at time `t` fails. -/
  fails : Nat → Bool

/-- An open `storage.Writer`: the object it writes, the data given to it, and
whether a write has failed. -/
structure Writer where
  bucket : String
  object : String
  data : Bytes
  broken : Bool

/-- The state of the environment. -/
structure Sys where
  /-- The number of operations performed so far. -/
  clock : Nat
  /-- The vault has been initialised: an init request was answered with 200. -/
  initialized : Bool
  /-- The vault is sealed. -/
  isSealed : Bool
  /-- The valid shares received since the vault was last sealed. -/
  progress : Nat
  /-- The objects of the store, by bucket and object name. -/
  store : String → String → Option Bytes
  /-- The writer that is open, if any. -/
  writer : Option Writer

/-- An uninitialised vault and an empty store. -/
def Sys.initial : Sys :=
  { clock := 0, initialized := false, isSealed := true, progress := 0,
    store := fun _ _ => none, writer := none }

/-- The status of `GET /v1/sys/health`: 501 uninitialised, 503 sealed, 200 otherwise. -/
def Sys.health (s : Sys) : Int :=
  if !s.initialized then 501 else if s.isSealed then 503 else 200

/-- The text of a fault. -/
def faultErr : Err := "connection refused"

/-- The vault's answer to a request that arrived, and its next state.  An init request
initialises an uninitialised vault (status 200, body `initBody`; the vault is then
sealed) and is refused otherwise; an unseal request with a valid share counts towards
the threshold, and the reply tells whether the vault is still sealed. -/
def vaultDo (env : Env) (s : Sys) (req : Request) : Response × Sys :=
  if req.URL = initURL then
    if s.initialized then (⟨400, .ok (ascii "\x7b\"errors\":[\"Vault is already initialized\"]\x7d")⟩, s)
    else (⟨200, .ok env.initBody⟩, { s with initialized := true, isSealed := true, progress := 0 })
  else if req.URL = unsealURL then
    if !s.initialized then (⟨400, .ok (ascii "\x7b\"errors\":[\"Vault is not initialized\"]\x7d")⟩, s)
    else if !s.isSealed then
      (⟨200, .ok (env.replyBody ⟨false, env.threshold, env.threshold, 0⟩)⟩, s)
    else if !env.validShare req.Body then
      (⟨400, .ok (ascii "\x7b\"errors\":[\"invalid key\"]\x7d")⟩, s)
    else if s.progress + 1 ≥ env.threshold then
      (⟨200, .ok (env.replyBody ⟨false, env.threshold, env.threshold, 0⟩)⟩,
       { s with isSealed := false, progress := 0 })
    else
      (⟨200, .ok (env.replyBody ⟨true, env.threshold, env.threshold, s.progress + 1⟩)⟩,
       { s with progress := s.progress + 1 })
  else (⟨404, .ok []⟩, s)

/-- The answer of the environment to an operation in state `s` at which no fault
strikes.  A writer collects the data written to it and the object appears when the
writer is closed (a close after a failed write fails); a reader opens only on an
object that exists. -/
def sysAnswer (env : Env) (s : Sys) : (o : Op) → Resp o × Sys
  | .enter _ => ((), s)
  | .log _ => ((), s)
  | .sleep _ => ((), s)
  | .httpGet url =>
    if url = healthURL then (.ok ⟨s.health, .ok []⟩, s) else (.ok ⟨404, .ok []⟩, s)
  | .httpDo req => (.ok (vaultDo env s req).1, (vaultDo env s req).2)
  | .googleDefaultClient => (.ok (), s)
  | .cloudkmsNew => (.ok (), s)
  | .kmsEncrypt _ plaintext => (.ok (env.encrypt plaintext), s)
  | .kmsDecrypt _ ciphertext => (env.decrypt ciphertext, s)
  | .storageNewWriter b o =>
    ((), { s with writer := some { bucket := b, object := o, data := [], broken := false } })
  | .storageWrite b o d =>
    match s.writer with
    | some wr =>
      if wr.bucket = b ∧ wr.object = o ∧ wr.broken = false then
        (.ok d.length, { s with writer := some { wr with data := wr.data ++ d } })
      else (.error "storage: write failed", s)
    | none => (.error "storage: no writer", s)
  | .storageWriterClose b o =>
    match s.writer with
    | some wr =>
      if wr.bucket = b ∧ wr.object = o ∧ wr.broken = false then
        (.ok (), { s with
          store := fun b2 o2 => if b2 = b ∧ o2 = o then some wr.data else s.store b2 o2,
          writer := none })
      else (.error "storage: close failed", { s with writer := none })
    | none => (.error "storage: no writer", s)
  | .storageNewReader b o =>
    match s.store b o with
    | some _ => (.ok (), s)
    | none => (.error "storage: object doesn't exist", s)
  | .storageReadAll b o =>
    match s.store b o with
    | some data => (.ok data, s)
    | none => (.error "storage: object doesn't exist", s)
  | .storageReaderClose _ _ => (.ok (), s)

/-- The answer to an operation at which a fault strikes: a call that can fail fails
and changes nothing, but a failed write breaks the open writer and a failed close
discards it. -/
def sysFault (s : Sys) : (o : Op) → Resp o × Sys
  | .enter _ => ((), s)
  | .log _ => ((), s)
  | .sleep _ => ((), s)
  | .httpGet _ => (.error faultErr, s)
  | .httpDo _ => (.error faultErr, s)
  | .googleDefaultClient => (.error faultErr, s)
  | .cloudkmsNew => (.error faultErr, s)
  | .kmsEncrypt _ _ => (.error faultErr, s)
  | .kmsDecrypt _ _ => (.error faultErr, s)
  | .storageNewWriter b o =>
    ((), { s with writer := some { bucket := b, object := o, data := [], broken := false } })
  | .storageWrite _ _ _ =>
    (.error faultErr, { s with writer := s.writer.map fun wr => { wr with broken := true } })
  | .storageWriterClose _ _ => (.error faultErr, { s with writer := none })
  | .storageNewReader _ _ => (.error faultErr, s)
  | .storageReadAll _ _ => (.error faultErr, s)
  | .storageReaderClose _ _ => (.error faultErr, s)

/-- The modelled environment as a world: every operation advances the clock, and
the fault schedule decides whether it fails. -/
def sysWorld (env : Env) : World Sys where
  handle s o :=
    let out := if env.fails s.clock then sysFault s o else sysAnswer env s o
    (out.1, { out.2 with clock := s.clock + 1 })

/-- The state of the modelled environment after `n` poll cycles from an
uninitialised vault and an empty store. -/
def Sys.after (J : JSON) (bucketName : String) (env : Env) (n : Nat) : Sys :=
  ((mainLoop J bucketName n).run (sysWorld env) Sys.initial).state

/-- A sealed, initialised vault and a store whose object `keys.json` in bucket `b`
holds `data`. -/
def Sys.holding (b : String) (data : Bytes) : Sys :=
  { clock := 0, initialized := true, isSealed := true, progress := 0,
    store := fun b2 o2 => if b2 = b ∧ o2 = keysObject then some data else none,
    writer := none }

/-- The object `keys.json` of bucket `b` exists only if the vault has been initialised. -/
def keysImplyInitialized (b : String) (s : Sys) : Prop :=
  (s.store b keysObject).isSome = true → s.initialized = true

/-! ## Concrete environments and states -/

/-- The init response of the end-to-end scenario. -/
def scenarioBody : Bytes :=
  ascii "\x7b\"keys\":[\"a\"],\"keys_base64\":[\"YQ==\"],\"root_token\":\"r\"\x7d"

/-- The body of the init request, as the reference codec writes it. -/
def initRequestText : Bytes := ascii "\x7b\"secret_shares\":1,\"secret_threshold\":1\x7d"

/-- An environment without faults: the vault answers init with `scenarioBody` and
is unsealed by one share `YQ==`; the service encrypts by reversing the text. -/
def scenarioEnv : Env :=
  { initBody := scenarioBody
    threshold := 1
    validShare := fun body => body = ascii "\x7b\"key\":\"YQ==\",\"reset\":false\x7d"
    replyBody := json.MarshalUnsealResponse
    encrypt := List.reverse
    decrypt := fun c => .ok c.reverse
    fails := fun _ => false }

/-- The ciphertext of the scenario body in `scenarioEnv`. -/
def scenarioCiphertext : Bytes := (base64.EncodeToString scenarioBody).reverse

/-- A sealed, initialised vault whose store holds the sealed scenario body. -/
def holdingScenario : Sys := Sys.holding "bucket" scenarioCiphertext

/-- The environment `scenarioEnv` in which the operation at time 7 fails: in the
first poll cycle that is the call of `Encrypt`. -/
def encryptFailsEnv : Env := { scenarioEnv with fails := fun t => t = 7 }

/-- The environment `scenarioEnv` in which the operation at time 5 fails: in a run of
`initialize` from time 0 that is the call of `Encrypt`, in a run of `unseal` the call
of `Decrypt`. -/
def kmsFailsEnv : Env := { scenarioEnv with fails := fun t => t = 5 }

/-- The init response of `twoSharesEnv`. -/
def twoSharesBody : Bytes :=
  ascii "\x7b\"keys\":[\"a\",\"b\"],\"keys_base64\":[\"YQ==\",\"Yg==\"],\"root_token\":\"r\"\x7d"

/-- An environment whose vault hands out two shares and is unsealed by the first. -/
def twoSharesEnv : Env :=
  { scenarioEnv with
    initBody := twoSharesBody }

/-- A sealed, initialised vault whose store holds the sealed two-share init response. -/
def holdingTwoShares : Sys :=
  Sys.holding "bucket" (base64.EncodeToString twoSharesBody).reverse

/-! ## The shapes of the runs -/

/-- The runs of `initialize_encrypt body`: trace and value. -/
inductive EncryptRun (body : Bytes) : List Event → Option Bytes → Prop where
  | clientError (err : Err) :
    EncryptRun body [.googleDefaultClient (.error err), .log err] none
  | serviceError (err : Err) :
    EncryptRun body [.googleDefaultClient (.ok ()), .cloudkmsNew (.error err), .log err] none
  | encryptError (err : Err) :
    EncryptRun body [.googleDefaultClient (.ok ()), .cloudkmsNew (.ok ()),
      .log "Encrypting Vault init keys",
      .kmsEncrypt keyName (base64.EncodeToString body) (.error err), .log err] none
  | encrypted (ciphertext : Bytes) :
    EncryptRun body [.googleDefaultClient (.ok ()), .cloudkmsNew (.ok ()),
      .log "Encrypting Vault init keys",
      .kmsEncrypt keyName (base64.EncodeToString body) (.ok ciphertext)] (some ciphertext)

/-- The runs of `initialize_write bucketName ciphertext`. -/
inductive WriteRun (bucketName : String) (ciphertext : Bytes) : List Event → Prop where
  | mk (res : Result Nat) (closed : Result Unit) :
    WriteRun bucketName ciphertext
      ([.storageNewWriter bucketName keysObject,
        .storageWrite bucketName keysObject ciphertext res] ++ errLog res ++
       [.log (keysWrittenLine bucketName), .log "Initialization complete.",
        .storageWriterClose bucketName keysObject closed])

/-- The runs of `initializeVault J bucketName`. -/
inductive InitRun (J : JSON) (bucketName : String) : List Event → Prop where
  | marshalError (err : Err)
      (hm : J.MarshalInitRequest { SecretShares := 1, SecretThreshold := 1 } = .error err) :
    InitRun J bucketName [.enter .initializer, .log err]
  | doError (data : Bytes) (err : Err)
      (hm : J.MarshalInitRequest { SecretShares := 1, SecretThreshold := 1 } = .ok data) :
    InitRun J bucketName
      [.enter .initializer, .httpDo ⟨"PUT", initURL, data⟩ (.error err), .log err]
  | readError (data : Bytes) (code : Int) (err : Err)
      (hm : J.MarshalInitRequest { SecretShares := 1, SecretThreshold := 1 } = .ok data) :
    InitRun J bucketName
      [.enter .initializer, .httpDo ⟨"PUT", initURL, data⟩ (.ok ⟨code, .error err⟩), .log err]
  | nonOK (data : Bytes) (code : Int) (body : Bytes)
      (hm : J.MarshalInitRequest { SecretShares := 1, SecretThreshold := 1 } = .ok data)
      (hcode : code ≠ 200) :
    InitRun J bucketName
      [.enter .initializer, .httpDo ⟨"PUT", initURL, data⟩ (.ok ⟨code, .ok body⟩),
       .log (nonOKLine code)]
  | sealFailed (data : Bytes) (body : Bytes) (E : List Event)
      (hm : J.MarshalInitRequest { SecretShares := 1, SecretThreshold := 1 } = .ok data)
      (hE : EncryptRun body E none) :
    InitRun J bucketName
      ([.enter .initializer, .httpDo ⟨"PUT", initURL, data⟩ (.ok ⟨200, .ok body⟩)] ++ E)
  | written (data : Bytes) (body : Bytes) (E : List Event) (ciphertext : Bytes) (W : List Event)
      (hm : J.MarshalInitRequest { SecretShares := 1, SecretThreshold := 1 } = .ok data)
      (hE : EncryptRun body E (some ciphertext)) (hW : WriteRun bucketName ciphertext W) :
    InitRun J bucketName
      ([.enter .initializer, .httpDo ⟨"PUT", initURL, data⟩ (.ok ⟨200, .ok body⟩)] ++ E ++ W)

/-- The runs of `unseal_decrypt data`: trace and value. -/
inductive DecryptRun (data : Bytes) : List Event → Option Bytes → Prop where
  | clientError (err : Err) :
    DecryptRun data [.googleDefaultClient (.error err), .log err] none
  | serviceError (err : Err) :
    DecryptRun data [.googleDefaultClient (.ok ()), .cloudkmsNew (.error err), .log err] none
  | decryptError (err : Err) :
    DecryptRun data [.googleDefaultClient (.ok ()), .cloudkmsNew (.ok ()),
      .kmsDecrypt keyName data (.error err), .log err] none
  | decodeError (plaintext : Bytes) (err : Err)
      (hd : base64.DecodeString plaintext = .error err) :
    DecryptRun data [.googleDefaultClient (.ok ()), .cloudkmsNew (.ok ()),
      .kmsDecrypt keyName data (.ok plaintext), .log err] none
  | decrypted (plaintext px : Bytes) (hd : base64.DecodeString plaintext = .ok px) :
    DecryptRun data [.googleDefaultClient (.ok ()), .cloudkmsNew (.ok ()),
      .kmsDecrypt keyName data (.ok plaintext)] (some px)

/-- The runs of `unseal_loop J keys`. -/
inductive LoopRun (J : JSON) : List Bytes → List Event → Prop where
  | exhausted : LoopRun J [] []
  | marshalError (key : Bytes) (rest : List Bytes) (err : Err)
      (hm : J.MarshalUnsealRequest { Key := key, Reset := false } = .error err) :
    LoopRun J (key :: rest) [.log err]
  | doError (key : Bytes) (rest : List Bytes) (b : Bytes) (err : Err)
      (hm : J.MarshalUnsealRequest { Key := key, Reset := false } = .ok b) :
    LoopRun J (key :: rest) [.httpDo ⟨"PUT", unsealURL, b⟩ (.error err), .log err]
  | nonOK (key : Bytes) (rest : List Bytes) (b : Bytes) (code : Int) (body : Result Bytes)
      (hm : J.MarshalUnsealRequest { Key := key, Reset := false } = .ok b)
      (hcode : code ≠ 200) :
    LoopRun J (key :: rest)
      [.httpDo ⟨"PUT", unsealURL, b⟩ (.ok ⟨code, body⟩), .log (nonOKLine code)]
  | readError (key : Bytes) (rest : List Bytes) (b : Bytes) (err : Err)
      (hm : J.MarshalUnsealRequest { Key := key, Reset := false } = .ok b) :
    LoopRun J (key :: rest)
      [.httpDo ⟨"PUT", unsealURL, b⟩ (.ok ⟨200, .error err⟩), .log err]
  | unmarshalError (key : Bytes) (rest : List Bytes) (b body : Bytes) (err : Err)
      (hm : J.MarshalUnsealRequest { Key := key, Reset := false } = .ok b)
      (hu : J.UnmarshalUnsealResponse body = .error err) :
    LoopRun J (key :: rest)
      [.httpDo ⟨"PUT", unsealURL, b⟩ (.ok ⟨200, .ok body⟩), .log err]
  | unsealed (key : Bytes) (rest : List Bytes) (b body : Bytes) (unr : unsealResponse)
      (hm : J.MarshalUnsealRequest { Key := key, Reset := false } = .ok b)
      (hu : J.UnmarshalUnsealResponse body = .ok unr) (hs : unr.Sealed = false) :
    LoopRun J (key :: rest)
      [.httpDo ⟨"PUT", unsealURL, b⟩ (.ok ⟨200, .ok body⟩), .log "Unseal complete."]
  | next (key : Bytes) (rest : List Bytes) (b body : Bytes) (unr : unsealResponse)
      (L : List Event)
      (hm : J.MarshalUnsealRequest { Key := key, Reset := false } = .ok b)
      (hu : J.UnmarshalUnsealResponse body = .ok unr) (hs : unr.Sealed = true)
      (hL : LoopRun J rest L) :
    LoopRun J (key :: rest) (.httpDo ⟨"PUT", unsealURL, b⟩ (.ok ⟨200, .ok body⟩) :: L)

/-- The runs of `unsealVault J bucketName`. -/
inductive UnsealRun (J : JSON) (bucketName : String) : List Event → Prop where
  | newReaderError (err : Err) :
    UnsealRun J bucketName
      [.enter .unsealer, .storageNewReader bucketName keysObject (.error err), .log err]
  | readError (err : Err) (closed : Result Unit) :
    UnsealRun J bucketName
      [.enter .unsealer, .storageNewReader bucketName keysObject (.ok ()),
       .storageReadAll bucketName keysObject (.error err), .log err,
       .storageReaderClose bucketName keysObject closed]
  | openFailed (data : Bytes) (D : List Event) (closed : Result Unit)
      (hD : DecryptRun data D none) :
    UnsealRun J bucketName
      ([.enter .unsealer, .storageNewReader bucketName keysObject (.ok ()),
        .storageReadAll bucketName keysObject (.ok data)] ++ D ++
       [.storageReaderClose bucketName keysObject closed])
  | unmarshalError (data : Bytes) (D : List Event) (px : Bytes) (err : Err)
      (closed : Result Unit)
      (hD : DecryptRun data D (some px)) (hu : J.UnmarshalInitResponse px = .error err) :
    UnsealRun J bucketName
      ([.enter .unsealer, .storageNewReader bucketName keysObject (.ok ()),
        .storageReadAll bucketName keysObject (.ok data)] ++ D ++
       [.log err, .storageReaderClose bucketName keysObject closed])
  | looped (data : Bytes) (D : List Event) (px : Bytes) (ir : initResponse)
      (L : List Event) (closed : Result Unit)
      (hD : DecryptRun data D (some px)) (hu : J.UnmarshalInitResponse px = .ok ir)
      (hL : LoopRun J ir.KeysBase64 L) :
    UnsealRun J bucketName
      ([.enter .unsealer, .storageNewReader bucketName keysObject (.ok ()),
        .storageReadAll bucketName keysObject (.ok data)] ++ D ++ L ++
       [.storageReaderClose bucketName keysObject closed])

/-- The runs of `dispatch J bucketName code`. -/
inductive DispatchRun (J : JSON) (bucketName : String) : Int → List Event → Prop where
  | operable : DispatchRun J bucketName 200 [.log "Vault is initialized and unsealed."]
  | standby : DispatchRun J bucketName 429 [.log "Vault is unsealed and in standby mode."]
  | uninitialized (I : List Event) (hI : InitRun J bucketName I) :
    DispatchRun J bucketName 501 (.log "Vault is not initialized. Initializing..." :: I)
  | vaultSealed (U : List Event) (hU : UnsealRun J bucketName U) :
    DispatchRun J bucketName 503 (.log "Vault is sealed. Unsealing..." :: U)
  | unknown (code : Int) (h200 : code ≠ 200) (h429 : code ≠ 429) (h501 : code ≠ 501)
      (h503 : code ≠ 503) :
    DispatchRun J bucketName code [.log "Vault is in an unknown state"]

/-- The runs of `pollCycle J bucketName`. -/
inductive CycleRun (J : JSON) (bucketName : String) : List Event → Prop where
  | pollError (err : Err) :
    CycleRun J bucketName [.httpGet healthURL (.error err), .log err, .sleep 10]
  | polled (response : Response) (D : List Event)
      (hD : DispatchRun J bucketName response.StatusCode D) :
    CycleRun J bucketName
      (.httpGet healthURL (.ok response) :: D ++ [.log "Next check in 10 seconds.", .sleep 10])

/-! # Theorems -/

set_option maxRecDepth 100000

/-! ## Programs and their runs -/

theorem Prog.always_run {σ α : Type} (w : World σ) (p : Prog α) :
    ∀ (post : List Event → α → Prop) (s : σ), p.always post →
      post (p.run w s).trace (p.run w s).value := by
  induction p with
  | done a => intro post s h; exact h
  | call o k ih =>
    intro post s h
    exact ih (w.handle s o).1 _ (w.handle s o).2 (h (w.handle s o).1)

theorem Prog.always_mono {α : Type} (p : Prog α) :
    ∀ (post post2 : List Event → α → Prop), (∀ T a, post T a → post2 T a) →
      p.always post → p.always post2 := by
  induction p with
  | done a => intro post post2 h hp; exact h _ _ hp
  | call o k ih =>
    intro post post2 h hp r
    exact ih r _ _ (fun T a hT => h _ _ hT) (hp r)

theorem Prog.always_bind {α β : Type} (p : Prog α) (f : α → Prog β) :
    ∀ (post : List Event → β → Prop),
      p.always (fun T a => (f a).always (fun T2 b => post (T ++ T2) b)) →
        (p.bind f).always post := by
  induction p with
  | done a => intro post h; exact h
  | call o k ih =>
    intro post h r
    exact ih r _ (h r)

theorem Prog.always_say {α : Type} (line : String) (k : Prog α)
    (post : List Event → α → Prop) (h : k.always (fun T a => post (.log line :: T) a)) :
    (say line k).always post :=
  fun _ => h

theorem Prog.run_bind {σ α β : Type} (w : World σ) (p : Prog α) (f : α → Prog β) :
    ∀ s : σ, (p.bind f).run w s =
      { trace := (p.run w s).trace ++ ((f (p.run w s).value).run w (p.run w s).state).trace,
        state := ((f (p.run w s).value).run w (p.run w s).state).state,
        value := ((f (p.run w s).value).run w (p.run w s).state).value } := by
  induction p with
  | done a => intro s; rfl
  | call o k ih =>
    intro s
    simp only [Prog.bind, Prog.run, ih, List.cons_append]

theorem World.replay_ofOp {σ : Type} (w : World σ) (s : σ) (o : Op) (r : Resp o)
    (T : List Event) : w.replay s (Event.ofOp o r :: T) = w.replay (w.handle s o).2 T := by
  cases o <;> rfl

theorem World.answers_ofOp {σ : Type} (w : World σ) (s : σ) (o : Op) (T : List Event) :
    w.answers s (Event.ofOp o (w.handle s o).1 :: T) ↔ w.answers (w.handle s o).2 T := by
  cases o <;> simp [World.answers, Event.op, Event.ofOp]

theorem Prog.run_replay {σ α : Type} (w : World σ) (p : Prog α) :
    ∀ s : σ, (p.run w s).state = w.replay s (p.run w s).trace ∧
      w.answers s (p.run w s).trace := by
  induction p with
  | done a => intro s; exact ⟨rfl, trivial⟩
  | call o k ih =>
    intro s
    simp only [Prog.run]
    rw [World.replay_ofOp, World.answers_ofOp]
    exact ih _ _

theorem World.replay_append {σ : Type} (w : World σ) (T1 T2 : List Event) :
    ∀ s : σ, w.replay s (T1 ++ T2) = w.replay (w.replay s T1) T2 := by
  induction T1 with
  | nil => intro s; rfl
  | cons e T1 ih => intro s; simp only [List.cons_append, World.replay]; exact ih _

theorem World.answers_append {σ : Type} (w : World σ) (T1 T2 : List Event) :
    ∀ s : σ, w.answers s (T1 ++ T2) ↔ w.answers s T1 ∧ w.answers (w.replay s T1) T2 := by
  induction T1 with
  | nil => intro s; simp [World.answers, World.replay]
  | cons e T1 ih =>
    intro s
    show _ ∧ w.answers _ (T1 ++ T2) ↔ (_ ∧ w.answers _ T1) ∧ w.answers _ T2
    rw [ih, and_assoc]
    rfl

theorem World.replay_invariant {σ : Type} (w : World σ) (I : σ → Prop) (allowed : Op → Prop)
    (hstep : ∀ s o, allowed o → I s → I (w.handle s o).2) (T : List Event) :
    ∀ s : σ, (∀ e ∈ T, allowed e.op) → I s → I (w.replay s T) := by
  induction T with
  | nil => intro s _ h; exact h
  | cons e T ih =>
    intro s hall h
    exact ih _ (fun e2 he2 => hall e2 (List.mem_cons_of_mem _ he2))
      (hstep s e.op (hall e (List.mem_cons_self _ _)) h)

/-! ## Every run has one of the shapes -/

theorem initialize_encrypt_always (body : Bytes) :
    (initialize_encrypt body).always (EncryptRun body) := by
  unfold initialize_encrypt
  simp only [Prog.always, say, Event.ofOp]
  rintro (_ | err)
  · rintro (_ | err2)
    · rintro _ (c | err3)
      · exact .encrypted c
      · intro _; exact .encryptError err3
    · intro _; exact .serviceError err2
  · intro _; exact .clientError err

theorem initialize_write_always (b : String) (c : Bytes) :
    (initialize_write b c).always (fun T _ => WriteRun b c T) := by
  unfold initialize_write
  simp only [Prog.always, say, Event.ofOp]
  rintro _ (n | err)
  · intro _ _ closed; exact .mk (.ok n) closed
  · intro _ _ _ closed; exact .mk (.error err) closed

theorem initializeVault_always (J : JSON) (b : String) :
    (initializeVault J b).always (fun T _ => InitRun J b T) := by
  unfold initializeVault
  simp only [Prog.always, Event.ofOp]
  intro _
  cases hm : J.MarshalInitRequest { SecretShares := 1, SecretThreshold := 1 } with
  | error err =>
    simp only [say, Prog.always, Event.ofOp]
    intro _; exact .marshalError err hm
  | ok data =>
    simp only [NewRequest, Prog.always, Event.ofOp]
    rintro (⟨code, (body | err)⟩ | err)
    · by_cases hs : code = 200
      · subst hs
        simp only [ne_eq, not_true_eq_false, if_false]
        apply Prog.always_bind
        apply Prog.always_mono _ _ _ _ (initialize_encrypt_always body)
        rintro E (_ | c) hE
        · simp only [Prog.always, List.append_nil]
          exact .sealFailed data body E hm hE
        · apply Prog.always_mono _ _ _ _ (initialize_write_always b c)
          intro W _ hW
          have h := InitRun.written data body E c W hm hE hW
          simpa using h
      · simp only [ne_eq, hs, not_false_eq_true, if_true, say, Prog.always, Event.ofOp]
        intro _; exact .nonOK data code body hm hs
    · simp only [say, Prog.always, Event.ofOp]
      intro _; exact .readError data code err hm
    · simp only [say, Prog.always, Event.ofOp]
      intro _; exact .doError data err hm

theorem unseal_decrypt_always (data : Bytes) :
    (unseal_decrypt data).always (DecryptRun data) := by
  unfold unseal_decrypt
  simp only [Prog.always, say, Event.ofOp]
  rintro (_ | err)
  · rintro (_ | err2)
    · rintro (p | err3)
      · cases hd : base64.DecodeString p with
        | ok px => simp only [hd, Prog.always]; exact .decrypted p px hd
        | error e => simp only [hd, Prog.always, Event.ofOp]; intro _; exact .decodeError p e hd
      · intro _; exact .decryptError err3
    · intro _; exact .serviceError err2
  · intro _; exact .clientError err

theorem unseal_loop_always (J : JSON) (keys : List Bytes) :
    (unseal_loop J keys).always (fun T _ => LoopRun J keys T) := by
  induction keys with
  | nil => exact .exhausted
  | cons key rest ih =>
    unfold unseal_loop
    cases hm : J.MarshalUnsealRequest { Key := key, Reset := false } with
    | error err =>
      simp only [hm, say, Prog.always, Event.ofOp]
      intro _; exact .marshalError key rest err hm
    | ok b =>
      simp only [hm, NewRequest, Prog.always, Event.ofOp]
      rintro (⟨code, body⟩ | err)
      · by_cases hs : code = 200
        · subst hs
          simp only [ne_eq, not_true_eq_false, if_false]
          rcases body with body | err
          · cases hu : J.UnmarshalUnsealResponse body with
            | error e =>
              simp only [hu, say, Prog.always, Event.ofOp]
              intro _; exact .unmarshalError key rest b body e hm hu
            | ok unr =>
              cases hsealed : unr.Sealed with
              | false =>
                simp only [hu, hsealed, say, Prog.always, Event.ofOp, Bool.not_false, if_true]
                intro _; exact .unsealed key rest b body unr hm hu hsealed
              | true =>
                simp only [hu, hsealed, Bool.not_true, Bool.false_eq_true, if_false]
                exact Prog.always_mono _ _ _
                  (fun L _ hL => .next key rest b body unr L hm hu hsealed hL) ih
          · simp only [say, Prog.always, Event.ofOp]
            intro _; exact .readError key rest b err hm
        · simp only [ne_eq, hs, not_false_eq_true, if_true, say, Prog.always, Event.ofOp]
          intro _; exact .nonOK key rest b code body hm hs
      · simp only [say, Prog.always, Event.ofOp]
        intro _; exact .doError key rest b err hm

theorem unsealVault_always (J : JSON) (b : String) :
    (unsealVault J b).always (fun T _ => UnsealRun J b T) := by
  unfold unsealVault
  simp only [Prog.always, Event.ofOp]
  rintro _ (_ | err)
  · rintro (data | err2)
    · apply Prog.always_bind
      apply Prog.always_mono _ _ _ _ (unseal_decrypt_always data)
      rintro D (_ | px) hD
      · simp only [Prog.always, Event.ofOp]
        intro closed
        have h := @UnsealRun.openFailed J b data D closed hD
        simpa using h
      · cases hu : J.UnmarshalInitResponse px with
        | error e =>
          simp only [hu, say, Prog.always, Event.ofOp]
          intro _ closed
          have h := @UnsealRun.unmarshalError J b data D px e closed hD hu
          simpa using h
        | ok ir =>
          simp only [hu]
          apply Prog.always_bind
          apply Prog.always_mono _ _ _ _ (unseal_loop_always J ir.KeysBase64)
          intro L _ hL
          simp only [Prog.always, Event.ofOp]
          intro closed
          have h := @UnsealRun.looped J b data D px ir L closed hD hu hL
          simpa using h
    · simp only [say, Prog.always, Event.ofOp]
      intro _ closed; exact .readError err2 closed
  · simp only [say, Prog.always, Event.ofOp]
    intro _; exact .newReaderError err

theorem dispatch_always (J : JSON) (b : String) (code : Int) :
    (dispatch J b code).always (fun T _ => DispatchRun J b code T) := by
  unfold dispatch
  split
  · exact Prog.always_say _ _ _ .operable
  · exact Prog.always_say _ _ _ .standby
  · exact Prog.always_say _ _ _
      (Prog.always_mono _ _ _ (fun I _ hI => DispatchRun.uninitialized I hI)
        (initializeVault_always J b))
  · exact Prog.always_say _ _ _
      (Prog.always_mono _ _ _ (fun U _ hU => DispatchRun.vaultSealed U hU)
        (unsealVault_always J b))
  · rename_i h1 h2 h3 h4
    exact Prog.always_say _ _ _ (.unknown code h1 h2 h3 h4)

theorem pollCycle_always (J : JSON) (b : String) :
    (pollCycle J b).always (fun T _ => CycleRun J b T) := by
  unfold pollCycle
  simp only [Prog.always, Event.ofOp]
  rintro (response | err)
  · apply Prog.always_bind
    apply Prog.always_mono _ _ _ _ (dispatch_always J b response.StatusCode)
    intro D _ hD
    simp only [say, Prog.always, Event.ofOp]
    intro _ _
    exact .polled response D hD
  · simp only [say, Prog.always, Event.ofOp]
    intro _ _
    exact .pollError err

theorem initializeVault_run (J : JSON) (b : String) {σ : Type} (w : World σ) (s : σ) :
    InitRun J b ((initializeVault J b).run w s).trace :=
  Prog.always_run w _ _ s (initializeVault_always J b)

theorem unsealVault_run (J : JSON) (b : String) {σ : Type} (w : World σ) (s : σ) :
    UnsealRun J b ((unsealVault J b).run w s).trace :=
  Prog.always_run w _ _ s (unsealVault_always J b)

theorem pollCycle_run (J : JSON) (b : String) {σ : Type} (w : World σ) (s : σ) :
    CycleRun J b ((pollCycle J b).run w s).trace :=
  Prog.always_run w _ _ s (pollCycle_always J b)

/-! ## What the shapes contain -/

theorem LoopRun.not_kms_storage {J : JSON} {keys : List Bytes} {L : List Event}
    (h : LoopRun J keys L) :
    ∀ e ∈ L, e.isKMS = false ∧ e.isStorage = false ∧ (∀ f, e ≠ .enter f) := by
  induction h <;> simp_all [Event.isKMS, Event.isStorage]

theorem LoopRun.loop_not_kms {J : JSON} {keys : List Bytes} {L : List Event}
    (h : LoopRun J keys L) (e : Event) (he : e ∈ L) : e.isKMS = false :=
  (h.not_kms_storage e he).1

theorem LoopRun.not_storage {J : JSON} {keys : List Bytes} {L : List Event}
    (h : LoopRun J keys L) (e : Event) (he : e ∈ L) : e.isStorage = false :=
  (h.not_kms_storage e he).2.1

theorem LoopRun.loop_not_put {J : JSON} {keys : List Bytes} {L : List Event}
    (h : LoopRun J keys L) : ∀ e ∈ L, e.isPut = false := by
  induction h <;> simp_all [Event.isPut]

theorem LoopRun.loop_count_enter {J : JSON} {keys : List Bytes} {L : List Event}
    (h : LoopRun J keys L) (f : Fn) : L.count (.enter f) = 0 := by
  rw [List.count_eq_zero]
  intro hmem
  exact (h.not_kms_storage _ hmem).2.2 f rfl

theorem LoopRun.loop_no_get {J : JSON} {keys : List Bytes} {L : List Event}
    (h : LoopRun J keys L) (u : String) (r : Result Response) : Event.httpGet u r ∉ L := by
  induction h <;> simp_all

theorem DecryptRun.only_kms_log {data : Bytes} {D : List Event} {v : Option Bytes}
    (h : DecryptRun data D v) :
    ∀ e ∈ D, e.isStorage = false ∧ e.isSubmit = false ∧ (∀ f, e ≠ .enter f) := by
  cases h <;> simp [Event.isStorage, Event.isSubmit]

theorem any_getFailure_false (T : List Event) (h : ∀ e ∈ T, e.isStorage = false) :
    T.any Event.isGetFailure = false := by
  rw [List.any_eq_false]
  intro e he
  have := h e he
  cases e <;> simp_all [Event.isStorage, Event.isGetFailure]

theorem any_sealFailure_false (T : List Event) (h : ∀ e ∈ T, e.isKMS = false) :
    T.any Event.isSealFailure = false := by
  rw [List.any_eq_false]
  intro e he
  have := h e he
  cases e <;> simp_all [Event.isKMS, Event.isSealFailure]

theorem any_openFailure_false (T : List Event) (h : ∀ e ∈ T, e.isKMS = false) :
    T.any Event.isOpenFailure = false := by
  rw [List.any_eq_false]
  intro e he
  have := h e he
  cases e <;> simp_all [Event.isKMS, Event.isOpenFailure]

theorem any_decryptsTo_false (J : JSON) (ir : initResponse) (T : List Event)
    (h : ∀ e ∈ T, e.isKMS = false) : T.any (Event.decryptsTo J ir) = false := by
  rw [List.any_eq_false]
  intro e he
  have := h e he
  cases e <;> simp_all [Event.isKMS, Event.decryptsTo]

theorem DecryptRun.decrypt_count_enter {data : Bytes} {D : List Event} {v : Option Bytes}
    (h : DecryptRun data D v) (f : Fn) : D.count (.enter f) = 0 := by
  cases h <;> simp [List.count_cons]

theorem DecryptRun.submitted_nil {data : Bytes} {D : List Event} {v : Option Bytes}
    (h : DecryptRun data D v) : submitted D = [] ∧ replies D = [] := by
  cases h <;> simp [submitted, replies]

theorem WriteRun.write_not_kms {b : String} {c : Bytes} {W : List Event} (h : WriteRun b c W) :
    ∀ e ∈ W, e.isKMS = false := by
  cases h with
  | mk res closed => cases res <;> simp [errLog, Event.isKMS]

theorem InitRun.init_count_enter {J : JSON} {b : String} {T : List Event} (h : InitRun J b T) :
    T.count (.enter .initializer) = 1 ∧ T.count (.enter .unsealer) = 0 := by
  cases h with
  | marshalError e hm => simp [List.count_cons]
  | doError data e hm => simp [List.count_cons]
  | readError data cd e hm => simp [List.count_cons]
  | nonOK data cd bd hm hc => simp [List.count_cons]
  | sealFailed data bd E hm hE => cases hE <;> simp [List.count_cons]
  | written data bd E c W hm hE hW =>
    cases hE
    cases hW with
    | mk res closed => cases res <;> simp [List.count_cons, errLog]

theorem InitRun.init_no_get {J : JSON} {b : String} {T : List Event} (h : InitRun J b T)
    (u : String) (r : Result Response) : Event.httpGet u r ∉ T := by
  cases h with
  | marshalError e hm => simp
  | doError data e hm => simp
  | readError data cd e hm => simp
  | nonOK data cd bd hm hc => simp
  | sealFailed data bd E hm hE => cases hE <;> simp
  | written data bd E c W hm hE hW =>
    cases hE
    cases hW with
    | mk res closed => cases res <;> simp [errLog]

theorem UnsealRun.unseal_count_enter {J : JSON} {b : String} {T : List Event} (h : UnsealRun J b T) :
    T.count (.enter .initializer) = 0 ∧ T.count (.enter .unsealer) = 1 := by
  cases h with
  | newReaderError e => simp [List.count_cons]
  | readError e closed => simp [List.count_cons]
  | openFailed data D closed hD => simp [List.count_cons, hD.decrypt_count_enter]
  | unmarshalError data D px e closed hD hu => simp [List.count_cons, hD.decrypt_count_enter]
  | looped data D px ir L closed hD hu hL =>
    simp [List.count_cons, hD.decrypt_count_enter, hL.loop_count_enter]

theorem UnsealRun.unseal_no_get {J : JSON} {b : String} {T : List Event} (h : UnsealRun J b T)
    (u : String) (r : Result Response) : Event.httpGet u r ∉ T := by
  cases h with
  | newReaderError e => simp
  | readError e closed => simp
  | openFailed data D closed hD => cases hD <;> simp
  | unmarshalError data D px e closed hD hu => cases hD; simp
  | looped data D px ir L closed hD hu hL =>
    cases hD
    simp [hL.loop_no_get]

theorem UnsealRun.unseal_not_put {J : JSON} {b : String} {T : List Event} (h : UnsealRun J b T) :
    ∀ e ∈ T, e.isPut = false := by
  cases h with
  | newReaderError e => simp [Event.isPut]
  | readError e closed => simp [Event.isPut]
  | openFailed data D closed hD => cases hD <;> simp [Event.isPut]
  | unmarshalError data D px e closed hD hu => cases hD; simp [Event.isPut]
  | looped data D px ir L closed hD hu hL =>
    cases hD
    have := hL.loop_not_put
    simp only [List.append_assoc, List.cons_append, List.nil_append, List.mem_cons,
      List.mem_append, List.mem_singleton, List.not_mem_nil, or_false]
    rintro e (rfl | rfl | rfl | rfl | rfl | rfl | he | rfl)
    all_goals first | rfl | exact this e he

theorem DispatchRun.dispatch_no_get {J : JSON} {b : String} {code : Int} {D : List Event}
    (h : DispatchRun J b code D) (u : String) (r : Result Response) :
    Event.httpGet u r ∉ D := by
  cases h with
  | operable => simp
  | standby => simp
  | uninitialized I hI => simp [hI.init_no_get]
  | vaultSealed U hU => simp [hU.unseal_no_get]
  | unknown c h1 h2 h3 h4 => simp

theorem filterMap_entered_nil (T : List Event) (h : ∀ e ∈ T, ∀ f, e ≠ .enter f) :
    T.filterMap enteredWorkflow = [] := by
  rw [List.filterMap_eq_nil_iff]
  intro e he
  cases e <;> simp [enteredWorkflow]
  exact h _ he _ rfl

theorem filterMap_polled_nil (T : List Event) (h : ∀ u r, Event.httpGet u r ∉ T) :
    T.filterMap polledStatus = [] := by
  rw [List.filterMap_eq_nil_iff]
  intro e he
  cases e <;> simp [polledStatus]
  rename_i u r
  exact absurd he (h u r)

theorem InitRun.init_entered {J : JSON} {b : String} {T : List Event} (h : InitRun J b T) :
    T.filterMap enteredWorkflow = [.initializer] := by
  cases h with
  | marshalError e hm => simp [enteredWorkflow]
  | doError data e hm => simp [enteredWorkflow]
  | readError data cd e hm => simp [enteredWorkflow]
  | nonOK data cd bd hm hc => simp [enteredWorkflow]
  | sealFailed data bd E hm hE => cases hE <;> simp [enteredWorkflow]
  | written data bd E c W hm hE hW =>
    cases hE
    cases hW with
    | mk res closed => cases res <;> simp [enteredWorkflow, errLog]

theorem UnsealRun.unseal_entered {J : JSON} {b : String} {T : List Event}
    (h : UnsealRun J b T) : T.filterMap enteredWorkflow = [.unsealer] := by
  cases h with
  | newReaderError e => simp [enteredWorkflow]
  | readError e closed => simp [enteredWorkflow]
  | openFailed data D closed hD => cases hD <;> simp [enteredWorkflow]
  | unmarshalError data D px e closed hD hu => cases hD; simp [enteredWorkflow]
  | looped data D px ir L closed hD hu hL =>
    cases hD
    have hL2 := filterMap_entered_nil L (fun e he => (hL.not_kms_storage e he).2.2)
    simp [enteredWorkflow, List.filterMap_append, hL2]

theorem CycleRun.cycle_entered {J : JSON} {b : String} {T : List Event}
    (h : CycleRun J b T) :
    T.filterMap enteredWorkflow = (T.filterMap polledStatus).filterMap workflowFor := by
  cases h with
  | pollError err => simp [enteredWorkflow, polledStatus]
  | polled r D hD =>
    have hp := filterMap_polled_nil D hD.dispatch_no_get
    simp only [List.filterMap_cons, List.filterMap_append, enteredWorkflow, polledStatus, hp,
      List.filterMap_nil, List.append_nil, List.nil_append]
    generalize r.StatusCode = code at hD
    cases hD with
    | operable => simp [enteredWorkflow, workflowFor]
    | standby => simp [enteredWorkflow, workflowFor]
    | uninitialized I hI => simp [enteredWorkflow, workflowFor, hI.init_entered]
    | vaultSealed U hU => simp [enteredWorkflow, workflowFor, hU.unseal_entered]
    | unknown c h1 h2 h3 h4 => simp [enteredWorkflow, workflowFor, h3, h4]

/-! ## base64: decoding what was encoded -/

namespace base64

theorem or_eq_add (i x y : Nat) (hx : 2 ^ i ∣ x) (hy : y < 2 ^ i) : x ||| y = x + y := by
  obtain ⟨k, rfl⟩ := hx
  exact (Nat.mul_add_lt_is_or hy k).symm

theorem decodeMap_encode (v : Nat) (hv : v < 64) : decodeMap (encode v) = v := by
  interval_cases v <;> decide

theorem encode_val3 (a b c : Nat) (hb : b < 256) (hc : c < 256) :
    a <<< 16 ||| b <<< 8 ||| c = a * 65536 + b * 256 + c := by
  have h1 : a <<< 16 ||| b <<< 8 = a * 65536 + b * 256 := by
    rw [Nat.shiftLeft_eq, Nat.shiftLeft_eq]
    exact or_eq_add 16 _ _ (Dvd.intro_left _ rfl) (by omega)
  rw [h1]
  exact or_eq_add 8 _ _ (by omega) (by omega)

theorem encode_val2 (a b : Nat) (hb : b < 256) :
    a <<< 16 ||| b <<< 8 = a * 65536 + b * 256 := by
  rw [Nat.shiftLeft_eq, Nat.shiftLeft_eq]
  exact or_eq_add 16 _ _ (Dvd.intro_left _ rfl) (by omega)

theorem decode_val4 (a b c d : Nat) (hb : b < 64) (hc : c < 64) (hd : d < 64) :
    a <<< 18 ||| b <<< 12 ||| c <<< 6 ||| d = a * 262144 + b * 4096 + c * 64 + d := by
  have h1 : a <<< 18 ||| b <<< 12 = a * 262144 + b * 4096 := by
    rw [Nat.shiftLeft_eq, Nat.shiftLeft_eq]
    exact or_eq_add 18 _ _ (Dvd.intro_left _ rfl) (by omega)
  have h2 : a * 262144 + b * 4096 ||| c <<< 6 = a * 262144 + b * 4096 + c * 64 := by
    rw [Nat.shiftLeft_eq]
    exact or_eq_add 12 _ _ (by omega) (by omega)
  rw [h1, h2]
  exact or_eq_add 6 _ _ (by omega) (by omega)

theorem sextet (val k : Nat) : val >>> k &&& 0x3F = val / 2 ^ k % 64 := by
  rw [Nat.shiftRight_eq_div_pow]
  exact Nat.and_pow_two_sub_one_eq_mod _ 6

theorem sextet_lt (val k : Nat) : val >>> k &&& 0x3F < 64 := by
  rw [sextet]; omega

theorem sextet0 (val : Nat) : val &&& 0x3F = val % 64 :=
  Nat.and_pow_two_sub_one_eq_mod _ 6

theorem sextet0_lt (val : Nat) : val &&& 0x3F < 64 := by
  rw [sextet0]; omega

/-- Four collected values give back the three bytes they were made of. -/
theorem quantumBytes_three (a b c : Byte) :
    quantumBytes
      [(a.val <<< 16 ||| b.val <<< 8 ||| c.val) >>> 18 &&& 0x3F,
       (a.val <<< 16 ||| b.val <<< 8 ||| c.val) >>> 12 &&& 0x3F,
       (a.val <<< 16 ||| b.val <<< 8 ||| c.val) >>> 6 &&& 0x3F,
       (a.val <<< 16 ||| b.val <<< 8 ||| c.val) &&& 0x3F] 4 = [a, b, c] := by
  have ha := a.isLt
  have hb := b.isLt
  have hc := c.isLt
  rw [sextet, sextet, sextet, sextet0, encode_val3 _ _ _ hb hc]
  simp only [quantumBytes, List.getD_cons_zero, List.getD_cons_succ]
  rw [decode_val4 _ _ _ _ (by omega) (by omega) (by omega)]
  simp only [Nat.shiftRight_eq_div_pow, byte]
  simp only [List.take, List.cons.injEq, and_true]
  refine ⟨?_, ?_, ?_⟩ <;> apply Fin.ext <;> simp only [] <;> omega

/-- Three collected values give back the two bytes they were made of. -/
theorem quantumBytes_two (a b : Byte) :
    quantumBytes
      [(a.val <<< 16 ||| b.val <<< 8) >>> 18 &&& 0x3F,
       (a.val <<< 16 ||| b.val <<< 8) >>> 12 &&& 0x3F,
       (a.val <<< 16 ||| b.val <<< 8) >>> 6 &&& 0x3F] 3 = [a, b] := by
  have ha := a.isLt
  have hb := b.isLt
  rw [sextet, sextet, sextet, encode_val2 _ _ hb]
  simp only [quantumBytes, List.getD_cons_zero, List.getD_cons_succ, List.getD_nil]
  rw [decode_val4 _ _ _ _ (by omega) (by omega) (by omega)]
  simp only [Nat.shiftRight_eq_div_pow, byte]
  simp only [List.take, List.cons.injEq, and_true]
  refine ⟨?_, ?_⟩ <;> apply Fin.ext <;> simp only [] <;> omega

/-- Two collected values give back the byte they were made of. -/
theorem quantumBytes_one (a : Byte) :
    quantumBytes [(a.val <<< 16) >>> 18 &&& 0x3F, (a.val <<< 16) >>> 12 &&& 0x3F] 2 = [a] := by
  have ha := a.isLt
  rw [sextet, sextet, Nat.shiftLeft_eq]
  simp only [quantumBytes, List.getD_cons_zero, List.getD_cons_succ, List.getD_nil]
  rw [decode_val4 _ _ _ _ (by omega) (by omega) (by omega)]
  simp only [Nat.shiftRight_eq_div_pow, byte]
  simp only [List.take, List.cons.injEq, and_true]
  apply Fin.ext
  simp only []
  omega

theorem decodeFrom_collect (v : Nat) (hv : v < 64) (rest : Bytes) (dbuf : List Nat)
    (hlen : dbuf.length < 3) :
    decodeFrom (encode v :: rest) dbuf = decodeFrom rest (dbuf ++ [v]) := by
  have h1 : decodeMap (encode v) ≠ 0xFF := by rw [decodeMap_encode v hv]; omega
  have h2 : ¬ (dbuf ++ [v]).length = 4 := by simp; omega
  have h3 : ¬ v = 255 := by omega
  rw [decodeFrom]
  simp only [ne_eq, not_false_eq_true, if_true, decodeMap_encode v hv, h2, if_false, h3]

theorem decodeFrom_close (v : Nat) (hv : v < 64) (rest : Bytes) (dbuf : List Nat)
    (hlen : dbuf.length = 3) :
    decodeFrom (encode v :: rest) dbuf =
      match decodeFrom rest [] with
      | .ok out => .ok (quantumBytes (dbuf ++ [v]) 4 ++ out)
      | .error e => .error e := by
  have h1 : decodeMap (encode v) ≠ 0xFF := by rw [decodeMap_encode v hv]; omega
  have h2 : (dbuf ++ [v]).length = 4 := by simp [hlen]
  have h3 : ¬ v = 255 := by omega
  rw [decodeFrom]
  simp only [ne_eq, not_false_eq_true, if_true, decodeMap_encode v hv, h2, h3]

/-- Decoding the encoding of a byte string gives the byte string back. -/
theorem decode_encode (P : Bytes) : DecodeString (EncodeToString P) = .ok P := by
  unfold DecodeString
  induction P using EncodeToString.induct with
  | case1 => simp [EncodeToString, decodeFrom]
  | case2 a =>
    simp only [EncodeToString]
    rw [decodeFrom_collect _ (sextet_lt _ _) _ _ (by simp),
      decodeFrom_collect _ (sextet_lt _ _) _ _ (by simp)]
    have hq := quantumBytes_one a
    simp only [List.nil_append, List.cons_append] at hq ⊢
    rw [decodeFrom]
    have hpad : decodeMap StdPadding = 0xFF := by decide
    have hnl : isNewline StdPadding = false := by decide
    simp [hpad, hnl, skipNewlines, hq]
  | case3 a b =>
    simp only [EncodeToString]
    rw [decodeFrom_collect _ (sextet_lt _ _) _ _ (by simp),
      decodeFrom_collect _ (sextet_lt _ _) _ _ (by simp),
      decodeFrom_collect _ (sextet_lt _ _) _ _ (by simp)]
    have hq := quantumBytes_two a b
    simp only [List.nil_append, List.cons_append] at hq ⊢
    rw [decodeFrom]
    have hpad : decodeMap StdPadding = 0xFF := by decide
    have hnl : isNewline StdPadding = false := by decide
    simp [hpad, hnl, skipNewlines, hq]
  | case4 a b c rest ih =>
    simp only [EncodeToString]
    rw [decodeFrom_collect _ (sextet_lt _ _) _ _ (by simp),
      decodeFrom_collect _ (sextet_lt _ _) _ _ (by simp),
      decodeFrom_collect _ (sextet_lt _ _) _ _ (by simp),
      decodeFrom_close _ (sextet0_lt _) _ _ (by simp), ih]
    have hq := quantumBytes_three a b c
    simp only [List.nil_append, List.cons_append] at hq ⊢
    rw [hq]
    rfl

end base64

/-- The model of `StdEncoding` on the test vectors of RFC 4648, section 10, and on
inputs the decoder must skip over or refuse. -/
theorem base64_test_vectors :
    base64.EncodeToString (ascii "") = ascii "" ∧
      base64.EncodeToString (ascii "f") = ascii "Zg==" ∧
      base64.EncodeToString (ascii "fo") = ascii "Zm8=" ∧
      base64.EncodeToString (ascii "foo") = ascii "Zm9v" ∧
      base64.EncodeToString (ascii "foob") = ascii "Zm9vYg==" ∧
      base64.EncodeToString (ascii "fooba") = ascii "Zm9vYmE=" ∧
      base64.EncodeToString (ascii "foobar") = ascii "Zm9vYmFy" ∧
      base64.DecodeString (ascii "Zm9vYmE=") = .ok (ascii "fooba") ∧
      base64.DecodeString (ascii "Zm9v\nYmFy\r\n") = .ok (ascii "foobar") ∧
      base64.DecodeString (ascii "Zg=") = .error base64.corrupt ∧
      base64.DecodeString (ascii "Zg") = .error base64.corrupt ∧
      base64.DecodeString (ascii "Zg==Zg==") = .error base64.corrupt ∧
      base64.DecodeString (ascii "Z!==") = .error base64.corrupt := by
  decide

/-! ## The modelled environment -/

theorem vaultDo_initialized (env : Env) (s : Sys) (req : Request)
    (h : s.initialized = true) : (vaultDo env s req).2.initialized = true := by
  unfold vaultDo
  repeat' split
  all_goals simp_all

theorem vaultDo_store (env : Env) (s : Sys) (req : Request) :
    (vaultDo env s req).2.store = s.store := by
  unfold vaultDo
  repeat' split
  all_goals rfl

theorem vaultDo_init_ok (env : Env) (s : Sys) (req : Request) (body : Result Bytes)
    (hurl : req.URL = initURL) (h : (vaultDo env s req).1 = ⟨200, body⟩) :
    (vaultDo env s req).2.initialized = true := by
  unfold vaultDo at h ⊢
  simp only [hurl, if_true] at h ⊢
  split
  · rename_i hi
    simp [hi] at h
  · rfl

/-- No operation of the environment takes the vault back to the uninitialised state. -/
theorem sysWorld_initialized (env : Env) (s : Sys) (o : Op) (h : s.initialized = true) :
    ((sysWorld env).handle s o).2.initialized = true := by
  simp only [sysWorld]
  by_cases hf : env.fails s.clock = true
  · simp only [hf, if_true]
    cases o <;> simp [sysFault, h]
  · simp only [hf, Bool.false_eq_true, if_false]
    cases o <;> simp only [sysAnswer, h, vaultDo_initialized env s _ h]
    all_goals (repeat' split)
    all_goals simp_all

/-- Only the operations that write to the store can change its objects. -/
theorem sysWorld_store (env : Env) (s : Sys) (o : Op)
    (ho : ∀ b n, o ≠ .storageWriterClose b n) :
    ((sysWorld env).handle s o).2.store = s.store := by
  simp only [sysWorld]
  by_cases hf : env.fails s.clock = true
  · simp only [hf, if_true]
    cases o <;> simp [sysFault]
  · simp only [hf, Bool.false_eq_true, if_false]
    cases o <;> simp only [sysAnswer, vaultDo_store]
    all_goals (repeat' split)
    all_goals first | rfl | (exfalso; exact ho _ _ rfl)

/-- An init request answered with status 200 leaves the vault initialised. -/
theorem sysWorld_init_ok (env : Env) (s : Sys) (req : Request) (body : Result Bytes)
    (hurl : req.URL = initURL)
    (h : ((sysWorld env).handle s (.httpDo req)).1 = .ok ⟨200, body⟩) :
    ((sysWorld env).handle s (.httpDo req)).2.initialized = true := by
  simp only [sysWorld] at h ⊢
  by_cases hf : env.fails s.clock = true
  · simp [hf, sysFault] at h
  · simp only [hf, Bool.false_eq_true, if_false, sysAnswer, Result.ok.injEq] at h ⊢
    exact vaultDo_init_ok env s req body hurl (Result.ok.inj h)

theorem replay_initialized (env : Env) (T : List Event) (s : Sys)
    (h : s.initialized = true) : ((sysWorld env).replay s T).initialized = true :=
  World.replay_invariant (sysWorld env) (fun s2 => s2.initialized = true) (fun _ => True)
    (fun s2 o _ h2 => sysWorld_initialized env s2 o h2) T s (fun _ _ => trivial) h

theorem Event.op_ne_close {e : Event} (h : e.isPut = false) (b n : String) :
    e.op ≠ .storageWriterClose b n := by
  cases e <;> simp [Event.isPut, Event.op] at h ⊢

theorem replay_store (env : Env) (T : List Event) (s : Sys)
    (h : ∀ e ∈ T, e.isPut = false) : ((sysWorld env).replay s T).store = s.store :=
  World.replay_invariant (sysWorld env) (fun s2 => s2.store = s.store)
    (fun o => ∀ b n, o ≠ .storageWriterClose b n)
    (fun s2 o ho h2 => (sysWorld_store env s2 o ho).trans h2) T s
    (fun e he => Event.op_ne_close (h e he)) rfl

theorem keysImplyInitialized_replay (env : Env) (b : String) (T : List Event) (s : Sys)
    (h : ∀ e ∈ T, e.isPut = false) (hs : keysImplyInitialized b s) :
    keysImplyInitialized b ((sysWorld env).replay s T) := by
  intro hsome
  rw [replay_store env T s h] at hsome
  exact replay_initialized env T s (hs hsome)

/-- After a run of `initialize` in the modelled environment, from a state reached
after `A`, the object exists only if the vault is initialised. -/
theorem InitRun.init_keeps_invariant {J : JSON} {b : String} {T : List Event}
    (h : InitRun J b T) (env : Env) (A Z : List Event) (s : Sys)
    (hA : ∀ e ∈ A, e.isPut = false) (hZ : ∀ e ∈ Z, e.isPut = false)
    (hans : (sysWorld env).answers s (A ++ T ++ Z)) (hs : keysImplyInitialized b s) :
    keysImplyInitialized b ((sysWorld env).replay s (A ++ T ++ Z)) := by
  have noput : (∀ e ∈ T, e.isPut = false) →
      keysImplyInitialized b ((sysWorld env).replay s (A ++ T ++ Z)) := by
    intro hT
    apply keysImplyInitialized_replay env b _ s _ hs
    intro e he
    simp only [List.mem_append] at he
    rcases he with (he | he) | he
    · exact hA e he
    · exact hT e he
    · exact hZ e he
  cases h with
  | marshalError e hm => exact noput (by simp [Event.isPut])
  | doError data e hm => exact noput (by simp [Event.isPut])
  | readError data cd e hm => exact noput (by simp [Event.isPut])
  | nonOK data cd bd hm hc => exact noput (by simp [Event.isPut])
  | sealFailed data bd E hm hE => exact noput (by cases hE <;> simp [Event.isPut])
  | written data bd E c W hm hE hW =>
    intro _
    have hsplit : A ++ ([Event.enter Fn.initializer,
        Event.httpDo ⟨"PUT", initURL, data⟩ (.ok ⟨200, .ok bd⟩)] ++ E ++ W) ++ Z =
        (A ++ [Event.enter Fn.initializer]) ++
          (Event.httpDo ⟨"PUT", initURL, data⟩ (.ok ⟨200, .ok bd⟩) :: (E ++ W ++ Z)) := by
      simp
    rw [hsplit] at hans ⊢
    rw [World.answers_append] at hans
    rw [World.replay_append]
    obtain ⟨-, hans2⟩ := hans
    simp only [World.answers, Event.op, Event.ofOp, Event.httpDo.injEq, true_and] at hans2
    simp only [World.replay, Event.op]
    apply replay_initialized
    exact sysWorld_init_ok env _ _ _ rfl hans2.1.symm

theorem CycleRun.cycle_keeps_invariant {J : JSON} {b : String} {T : List Event}
    (h : CycleRun J b T) (env : Env) (s : Sys)
    (hans : (sysWorld env).answers s T) (hs : keysImplyInitialized b s) :
    keysImplyInitialized b ((sysWorld env).replay s T) := by
  cases h with
  | pollError err =>
    exact keysImplyInitialized_replay env b _ s (by simp [Event.isPut]) hs
  | polled r D hD =>
    generalize r.StatusCode = code at hD
    cases hD with
    | operable => exact keysImplyInitialized_replay env b _ s (by simp [Event.isPut]) hs
    | standby => exact keysImplyInitialized_replay env b _ s (by simp [Event.isPut]) hs
    | unknown c h1 h2 h3 h4 =>
      exact keysImplyInitialized_replay env b _ s (by simp [Event.isPut]) hs
    | vaultSealed U hU =>
      apply keysImplyInitialized_replay env b _ s _ hs
      have := hU.unseal_not_put
      simp only [List.cons_append, List.mem_cons, List.mem_append, List.mem_singleton,
        List.not_mem_nil, or_false]
      rintro e (rfl | rfl | he | rfl | rfl)
      all_goals first | rfl | exact this e he
    | uninitialized I hI =>
      have hform : Event.httpGet healthURL (.ok r) ::
          (Event.log "Vault is not initialized. Initializing..." :: I) ++
            [Event.log "Next check in 10 seconds.", Event.sleep 10] =
          [Event.httpGet healthURL (.ok r),
            Event.log "Vault is not initialized. Initializing..."] ++ I ++
            [Event.log "Next check in 10 seconds.", Event.sleep 10] := by simp
      rw [hform] at hans ⊢
      exact hI.init_keeps_invariant env _ _ s (by simp [Event.isPut]) (by simp [Event.isPut])
        hans hs

theorem mainLoop_keysImplyInitialized (J : JSON) (b : String) (env : Env) (n : Nat) :
    ∀ s : Sys, keysImplyInitialized b s →
      keysImplyInitialized b ((mainLoop J b n).run (sysWorld env) s).state := by
  induction n with
  | zero => intro s hs; exact hs
  | succ n ih =>
    intro s hs
    simp only [mainLoop, Prog.run_bind]
    apply ih
    have hr := Prog.run_replay (sysWorld env) (pollCycle J b) s
    rw [hr.1]
    exact (pollCycle_run J b (sysWorld env) s).cycle_keeps_invariant env s hr.2 hs

theorem scenarioEnv_kmsConsistent : (sysWorld scenarioEnv).kmsConsistent := by
  intro s k x c h s2
  simp only [sysWorld, scenarioEnv, Bool.false_eq_true, if_false, sysAnswer,
    Result.ok.injEq] at h ⊢
  cases h
  rw [List.reverse_reverse]

theorem scenarioEnv_kmsAvailable : (sysWorld scenarioEnv).kmsAvailable := by
  intro s
  simp [sysWorld, scenarioEnv, sysAnswer]

theorem unsealURL_ne_initURL : ¬ unsealURL = initURL := by decide

/-! ## The dispatcher -/

/-- C1: in every poll cycle whose health request is answered with a status code `s`,
the cycle enters `initialize` exactly once and `unseal` not at all when `s = 501`,
enters `unseal` exactly once and `initialize` not at all when `s = 503`, and enters
neither for 200, 429 and every other code.  The world and its state are arbitrary, so
nothing of an earlier cycle enters the choice. -/
theorem pollCycle_dispatch (J : JSON) (bucketName : String) {σ : Type} (w : World σ) (s : σ)
    (response : Response)
    (hpoll : Event.httpGet healthURL (.ok response) ∈ ((pollCycle J bucketName).run w s).trace) :
    ((pollCycle J bucketName).run w s).trace.count (.enter .initializer) =
        (if response.StatusCode = 501 then 1 else 0) ∧
      ((pollCycle J bucketName).run w s).trace.count (.enter .unsealer) =
        (if response.StatusCode = 503 then 1 else 0) := by
  have h := pollCycle_run J bucketName w s
  generalize ((pollCycle J bucketName).run w s).trace = T at h hpoll
  cases h with
  | pollError err => simp at hpoll
  | polled r D hD =>
    have hr : r = response := by
      simp only [List.mem_cons, Event.httpGet.injEq, true_and, Result.ok.injEq,
        List.mem_append, List.not_mem_nil, or_false, reduceCtorEq, hD.dispatch_no_get,
        false_or] at hpoll
      exact hpoll.symm
    subst hr
    generalize r.StatusCode = code at hD
    cases hD with
    | operable => simp [List.count_cons]
    | standby => simp [List.count_cons]
    | uninitialized I hI => simp [List.count_cons, hI.init_count_enter]
    | vaultSealed U hU => simp [List.count_cons, hU.unseal_count_enter]
    | unknown c h1 h2 h3 h4 => simp [List.count_cons, h3, h4]

theorem pollCycle_dispatch_witness :
    Event.httpGet healthURL (.ok ⟨501, .ok []⟩) ∈
        ((pollCycle json.reference "bucket").run (sysWorld scenarioEnv) Sys.initial).trace ∧
      (((pollCycle json.reference "bucket").run (sysWorld scenarioEnv) Sys.initial).trace.count
            (.enter .initializer) = 1 ∧
        ((pollCycle json.reference "bucket").run (sysWorld scenarioEnv) Sys.initial).trace.count
            (.enter .unsealer) = 0) :=
  ⟨by decide,
    pollCycle_dispatch json.reference "bucket" (sysWorld scenarioEnv) Sys.initial
      ⟨501, .ok []⟩ (by decide)⟩

/-- Over any number of poll cycles, in any world, the workflows entered are, in order,
those the table assigns to the status codes polled: each cycle's choice is a function
of that cycle's status code alone. -/
theorem mainLoop_dispatch_sequence (J : JSON) (bucketName : String) {σ : Type}
    (w : World σ) (n : Nat) :
    ∀ s : σ, ((mainLoop J bucketName n).run w s).trace.filterMap enteredWorkflow =
      (((mainLoop J bucketName n).run w s).trace.filterMap polledStatus).filterMap workflowFor := by
  induction n with
  | zero => intro s; rfl
  | succ n ih =>
    intro s
    simp only [mainLoop, Prog.run_bind, List.filterMap_append]
    rw [ih, (pollCycle_run J bucketName w s).cycle_entered]

/-! ## The initialisation workflow -/

/-- C2: in every run of `initialize` in which the init request is answered with status
200 and body `B` and the sealing returns a ciphertext `c`, the calls to the
key-management service and to the object store are, in this order and nothing else:
the client is built, `Encrypt` is called once with the base64 text of `B` as
plaintext, a writer for `keys.json` is opened, `c` is written to it once, verbatim, and
the writer is closed. -/
theorem initializeVault_seal_then_put (J : JSON) (bucketName : String) {σ : Type}
    (w : World σ) (s : σ) (req : Request) (B : Bytes) (k : String) (x c : Bytes)
    (hresp : Event.httpDo req (.ok ⟨200, .ok B⟩) ∈ ((initializeVault J bucketName).run w s).trace)
    (hseal : Event.kmsEncrypt k x (.ok c) ∈ ((initializeVault J bucketName).run w s).trace) :
    ∃ res closed,
      ((initializeVault J bucketName).run w s).trace.filter (fun e => e.isKMS || e.isStorage) =
        [.googleDefaultClient (.ok ()), .cloudkmsNew (.ok ()),
         .kmsEncrypt keyName (base64.EncodeToString B) (.ok c),
         .storageNewWriter bucketName keysObject,
         .storageWrite bucketName keysObject c res,
         .storageWriterClose bucketName keysObject closed] := by
  have h := initializeVault_run J bucketName w s
  generalize ((initializeVault J bucketName).run w s).trace = T at h hresp hseal
  cases h with
  | marshalError e hm => simp at hseal
  | doError data e hm => simp at hseal
  | readError data cd e hm => simp at hseal
  | nonOK data cd bd hm hc => simp at hseal
  | sealFailed data bd E hm hE => cases hE <;> simp at hseal
  | written data bd E c2 W hm hE hW =>
    cases hE
    cases hW with
    | mk res closed =>
      refine ⟨res, closed, ?_⟩
      cases res <;> simp [errLog] at hresp hseal <;>
        obtain ⟨-, rfl⟩ := hresp <;> obtain ⟨-, -, rfl⟩ := hseal <;>
        simp [errLog, Event.isKMS, Event.isStorage, List.filter]

theorem initializeVault_seal_then_put_witness :
    Event.httpDo ⟨"PUT", initURL, initRequestText⟩ (.ok ⟨200, .ok scenarioBody⟩) ∈
        ((initializeVault json.reference "bucket").run (sysWorld scenarioEnv) Sys.initial).trace ∧
      Event.kmsEncrypt keyName (base64.EncodeToString scenarioBody) (.ok scenarioCiphertext) ∈
        ((initializeVault json.reference "bucket").run (sysWorld scenarioEnv) Sys.initial).trace ∧
      ∃ res closed,
        ((initializeVault json.reference "bucket").run (sysWorld scenarioEnv)
            Sys.initial).trace.filter (fun e => e.isKMS || e.isStorage) =
          [.googleDefaultClient (.ok ()), .cloudkmsNew (.ok ()),
           .kmsEncrypt keyName (base64.EncodeToString scenarioBody) (.ok scenarioCiphertext),
           .storageNewWriter "bucket" keysObject,
           .storageWrite "bucket" keysObject scenarioCiphertext res,
           .storageWriterClose "bucket" keysObject closed] :=
  ⟨by decide, by decide,
    initializeVault_seal_then_put json.reference "bucket" (sysWorld scenarioEnv) Sys.initial
      ⟨"PUT", initURL, initRequestText⟩ scenarioBody keyName
      (base64.EncodeToString scenarioBody) scenarioCiphertext (by decide) (by decide)⟩

/-- C5: in every run of `initialize` in which the init request is answered with a
status other than 200, whatever the body, the run makes no call to the
key-management service and no call to the object store. -/
theorem initializeVault_nonOK_no_effects (J : JSON) (bucketName : String) {σ : Type}
    (w : World σ) (s : σ) (req : Request) (code : Int) (body : Result Bytes)
    (hresp : Event.httpDo req (.ok ⟨code, body⟩) ∈ ((initializeVault J bucketName).run w s).trace)
    (hcode : code ≠ 200) :
    ∀ e ∈ ((initializeVault J bucketName).run w s).trace,
      e.isKMS = false ∧ e.isStorage = false := by
  have h := initializeVault_run J bucketName w s
  generalize ((initializeVault J bucketName).run w s).trace = T at h hresp
  cases h with
  | marshalError err hm => simp at hresp
  | doError data err hm => simp at hresp
  | readError data c err hm => simp [Event.isKMS, Event.isStorage]
  | nonOK data c bd hm hc => simp [Event.isKMS, Event.isStorage]
  | sealFailed data bd E hm hE =>
    cases hE <;> simp at hresp <;> exact absurd hresp.2.1 hcode
  | written data bd E c W hm hE hW =>
    cases hE
    cases hW with
    | mk res closed =>
      cases res <;> simp [errLog] at hresp <;> exact absurd hresp.2.1 hcode

theorem initializeVault_nonOK_no_effects_witness :
    Event.httpDo ⟨"PUT", initURL, initRequestText⟩
        (.ok ⟨400, .ok (ascii "\x7b\"errors\":[\"Vault is already initialized\"]\x7d")⟩) ∈
        ((initializeVault json.reference "bucket").run (sysWorld scenarioEnv)
          holdingScenario).trace ∧
      (400 : Int) ≠ 200 ∧
      ∀ e ∈ ((initializeVault json.reference "bucket").run (sysWorld scenarioEnv)
          holdingScenario).trace,
        e.isKMS = false ∧ e.isStorage = false :=
  ⟨by decide, by decide,
    initializeVault_nonOK_no_effects json.reference "bucket" (sysWorld scenarioEnv)
      holdingScenario ⟨"PUT", initURL, initRequestText⟩ 400
      (.ok (ascii "\x7b\"errors\":[\"Vault is already initialized\"]\x7d")) (by decide) (by decide)⟩

/-- C10: in every run of `initialize` in which the encryption succeeds (so the init
request was answered with status 200), the run ends with: one writer opened, one write
of the ciphertext, the error of that write logged if it returned one, then the lines
`Keys written to gs://<bucket>/keys.json` and `Initialization complete.`, then the
close of the writer.  Nothing before touches the object store, so the write is not
retried, and the two lines are the same whether or not the write returned an error. -/
theorem initializeVault_reports_after_write (J : JSON) (bucketName : String) {σ : Type}
    (w : World σ) (s : σ) (k : String) (x c : Bytes)
    (hseal : Event.kmsEncrypt k x (.ok c) ∈ ((initializeVault J bucketName).run w s).trace) :
    ∃ (before : List Event) (res : Result Nat) (closed : Result Unit),
      ((initializeVault J bucketName).run w s).trace =
        before ++
          [.storageNewWriter bucketName keysObject,
           .storageWrite bucketName keysObject c res] ++ errLog res ++
          [.log ("Keys written to gs://" ++ bucketName ++ "/keys.json"),
           .log "Initialization complete.",
           .storageWriterClose bucketName keysObject closed] ∧
      ∀ e ∈ before, e.isStorage = false := by
  have h := initializeVault_run J bucketName w s
  generalize ((initializeVault J bucketName).run w s).trace = T at h hseal
  cases h with
  | marshalError e hm => simp at hseal
  | doError data e hm => simp at hseal
  | readError data cd e hm => simp at hseal
  | nonOK data cd bd hm hc => simp at hseal
  | sealFailed data bd E hm hE => cases hE <;> simp at hseal
  | written data bd E c2 W hm hE hW =>
    cases hE
    cases hW with
    | mk res closed =>
      have hc : c2 = c := by
        cases res <;> simp [errLog] at hseal <;> exact hseal.2.2.symm
      subst hc
      refine ⟨[.enter .initializer,
          .httpDo ⟨"PUT", initURL, data⟩ (.ok ⟨200, .ok bd⟩),
          .googleDefaultClient (.ok ()), .cloudkmsNew (.ok ()),
          .log "Encrypting Vault init keys",
          .kmsEncrypt keyName (base64.EncodeToString bd) (.ok c2)], res, closed, ?_, ?_⟩
      · have hline : keysWrittenLine bucketName =
            "Keys written to gs://" ++ bucketName ++ "/keys.json" := by
          unfold keysWrittenLine keysObject
          rw [String.append_assoc _ "/" "keys.json"]
          rfl
        simp [hline]
      · simp [Event.isStorage]

theorem initializeVault_reports_after_write_witness :
    Event.kmsEncrypt keyName (base64.EncodeToString scenarioBody) (.ok scenarioCiphertext) ∈
        ((initializeVault json.reference "bucket").run (sysWorld scenarioEnv) Sys.initial).trace ∧
      ∃ (before : List Event) (res : Result Nat) (closed : Result Unit),
        ((initializeVault json.reference "bucket").run (sysWorld scenarioEnv)
            Sys.initial).trace =
          before ++
            [.storageNewWriter "bucket" keysObject,
             .storageWrite "bucket" keysObject scenarioCiphertext res] ++ errLog res ++
            [.log ("Keys written to gs://" ++ "bucket" ++ "/keys.json"),
             .log "Initialization complete.",
             .storageWriterClose "bucket" keysObject closed] ∧
        ∀ e ∈ before, e.isStorage = false :=
  ⟨by decide,
    initializeVault_reports_after_write json.reference "bucket" (sysWorld scenarioEnv)
      Sys.initial keyName (base64.EncodeToString scenarioBody) scenarioCiphertext (by decide)⟩

/-! ## The unseal workflow -/

theorem stopIndex_cons_stop (J : JSON) (r : Result Response) (rs : List (Result Response))
    (n : Nat) (h : replyStops J r = true) : stopIndex J (r :: rs) n = 1 := by
  simp [stopIndex, firstStop, h]

theorem stopIndex_cons_go (J : JSON) (r : Result Response) (rs : List (Result Response))
    (n : Nat) (h : replyStops J r = false) :
    stopIndex J (r :: rs) (n + 1) = stopIndex J rs n + 1 := by
  simp only [stopIndex, firstStop, h, Bool.false_eq_true, if_false]
  cases firstStop J rs <;> simp

theorem stopIndex_pos (J : JSON) (rs : List (Result Response)) (n : Nat) (hn : 0 < n) :
    0 < stopIndex J rs n := by
  cases rs with
  | nil => simpa [stopIndex, firstStop] using hn
  | cons r rs =>
    unfold stopIndex firstStop
    split
    · simp
    · cases firstStop J rs <;> simp [hn]

theorem LoopRun.submits {J : JSON} {keys : List Bytes} {L : List Event}
    (h : LoopRun J keys L) (marshal : unsealRequest → Bytes)
    (hm : ∀ ur, J.MarshalUnsealRequest ur = .ok (marshal ur))
    (hwf : ∀ r ∈ replies L, vaultReply J r = true) :
    submitted L =
        (keys.take (stopIndex J (replies L) keys.length)).map (unsealRequestOf marshal) ∧
      (replies L).length = stopIndex J (replies L) keys.length ∧
      ((∀ r ∈ replies L, replyStops J r = false) → ∀ e ∈ L, e.isLog = false) := by
  induction h with
  | exhausted => simp [submitted, replies, stopIndex, firstStop]
  | marshalError key rest err hm2 => rw [hm] at hm2; cases hm2
  | doError key rest b err hm2 => simp [replies, vaultReply] at hwf
  | nonOK key rest b code body hm2 hcode =>
    rw [hm] at hm2
    cases hm2
    have hstop : replyStops J (.ok ⟨code, body⟩) = true := by
      cases body <;> simp [replyStops, hcode]
    simp only [replies, List.filterMap_cons, List.filterMap_nil, submitted, List.length_cons]
    rw [stopIndex_cons_stop J _ _ _ hstop]
    simp [unsealRequestOf, hstop]
  | readError key rest b err hm2 => simp [replies, vaultReply] at hwf
  | unmarshalError key rest b body err hm2 hu => simp [replies, vaultReply, hu] at hwf
  | unsealed key rest b body unr hm2 hu hs =>
    rw [hm] at hm2
    cases hm2
    have hstop : replyStops J (.ok ⟨200, .ok body⟩) = true := by
      simp [replyStops, hu, hs]
    simp only [replies, List.filterMap_cons, List.filterMap_nil, submitted, List.length_cons]
    rw [stopIndex_cons_stop J _ _ _ hstop]
    simp [unsealRequestOf, hstop]
  | next key rest b body unr L hm2 hu hs hL ih =>
    rw [hm] at hm2
    cases hm2
    have hgo : replyStops J (.ok ⟨200, .ok body⟩) = false := by
      simp [replyStops, hu, hs]
    have hwf2 : ∀ r ∈ replies L, vaultReply J r = true := by
      intro r hr
      exact hwf r (by simp [replies] at hr ⊢; exact Or.inr hr)
    obtain ⟨ih1, ih2, ih3⟩ := ih hwf2
    have hrep : replies (Event.httpDo ⟨"PUT", unsealURL, marshal ⟨key, false⟩⟩
        (.ok ⟨200, .ok body⟩) :: L) = .ok ⟨200, .ok body⟩ :: replies L := by
      simp [replies]
    have hsub : submitted (Event.httpDo ⟨"PUT", unsealURL, marshal ⟨key, false⟩⟩
        (.ok ⟨200, .ok body⟩) :: L) = ⟨"PUT", unsealURL, marshal ⟨key, false⟩⟩ :: submitted L := by
      simp [submitted]
    rw [hrep, hsub, List.length_cons, stopIndex_cons_go J _ _ _ hgo]
    refine ⟨?_, ?_, ?_⟩
    · rw [List.take_succ_cons, List.map_cons, ← ih1]
      rfl
    · rw [List.length_cons, ih2]
    · intro hall e he
      have hall2 : ∀ r ∈ replies L, replyStops J r = false :=
        fun r hr => hall r (List.mem_cons_of_mem _ hr)
      rcases List.mem_cons.1 he with rfl | he
      · rfl
      · exact ih3 hall2 e he

/-- C3: in every run of `unseal` that decrypted the stored material to an
`initResponse` `ir`, with the replies of the vault being replies (a response arrived,
and one with status 200 carries an `unsealResponse`), the requests submitted are
exactly the requests for the first `m` shares of `ir.KeysBase64`, in the stored order,
each with `reset = false`, where `m` is the least index whose reply has a non-success
status or carries `sealed = false`, and `m` is the number of shares when no reply
does; in that case nothing is logged.  For a single share exactly one request, with
that share, is submitted. -/
theorem unsealVault_submits_until_stop (J : JSON) (bucketName : String) {σ : Type}
    (w : World σ) (s : σ) (ir : initResponse) (marshal : unsealRequest → Bytes)
    (hmarshal : ∀ ur, J.MarshalUnsealRequest ur = .ok (marshal ur))
    (hdec : decryptedTo J ((unsealVault J bucketName).run w s).trace ir = true)
    (hwf : ∀ r ∈ replies ((unsealVault J bucketName).run w s).trace, vaultReply J r = true) :
    submitted ((unsealVault J bucketName).run w s).trace =
        (ir.KeysBase64.take
          (stopIndex J (replies ((unsealVault J bucketName).run w s).trace)
            ir.KeysBase64.length)).map
          (fun key => { Method := "PUT", URL := unsealURL,
                        Body := marshal { Key := key, Reset := false } }) ∧
      ((∀ r ∈ replies ((unsealVault J bucketName).run w s).trace, replyStops J r = false) →
        ∀ e ∈ ((unsealVault J bucketName).run w s).trace, e.isLog = false) ∧
      (∀ k1, ir.KeysBase64 = [k1] →
        submitted ((unsealVault J bucketName).run w s).trace =
          [{ Method := "PUT", URL := unsealURL,
             Body := marshal { Key := k1, Reset := false } }]) := by
  have h := unsealVault_run J bucketName w s
  generalize ((unsealVault J bucketName).run w s).trace = T at h hdec hwf
  have main : submitted T =
        (ir.KeysBase64.take (stopIndex J (replies T) ir.KeysBase64.length)).map
          (unsealRequestOf marshal) ∧
      (replies T).length = stopIndex J (replies T) ir.KeysBase64.length ∧
      ((∀ r ∈ replies T, replyStops J r = false) → ∀ e ∈ T, e.isLog = false) := by
    cases h with
    | newReaderError e => simp [decryptedTo, Event.decryptsTo] at hdec
    | readError e closed => simp [decryptedTo, Event.decryptsTo] at hdec
    | openFailed data D closed hD =>
      exfalso
      cases hD with
      | clientError e => simp [decryptedTo, Event.decryptsTo] at hdec
      | serviceError e => simp [decryptedTo, Event.decryptsTo] at hdec
      | decryptError e => simp [decryptedTo, Event.decryptsTo] at hdec
      | decodeError pl e hd2 => simp [decryptedTo, Event.decryptsTo, hd2] at hdec
    | unmarshalError data D px2 e closed hD hu2 =>
      exfalso
      cases hD with
      | decrypted pl px3 hd2 => simp [decryptedTo, Event.decryptsTo, hd2, hu2] at hdec
    | looped data D px2 ir2 L closed hD hu2 hL =>
      have hsub := hD.submitted_nil
      have hir : ir2 = ir := by
        cases hD with
        | decrypted pl px3 hd2 =>
          have hL2 := any_decryptsTo_false J ir L hL.loop_not_kms
          simp [decryptedTo, List.any_append, Event.decryptsTo, hd2, hu2, hL2] at hdec
          exact hdec
      subst hir
      have hrep : replies ([Event.enter Fn.unsealer,
          Event.storageNewReader bucketName keysObject (Result.ok ()),
          Event.storageReadAll bucketName keysObject (Result.ok data)] ++ D ++ L ++
          [Event.storageReaderClose bucketName keysObject closed]) = replies L := by
        have h2 := hsub.2
        simp only [replies] at h2 ⊢
        simp [List.filterMap_append, h2]
      have hsb : submitted ([Event.enter Fn.unsealer,
          Event.storageNewReader bucketName keysObject (Result.ok ()),
          Event.storageReadAll bucketName keysObject (Result.ok data)] ++ D ++ L ++
          [Event.storageReaderClose bucketName keysObject closed]) = submitted L := by
        have h1 := hsub.1
        simp only [submitted] at h1 ⊢
        simp [List.filterMap_append, h1]
      rw [hrep] at hwf ⊢
      rw [hsb]
      obtain ⟨m1, m2, m3⟩ := hL.submits marshal hmarshal hwf
      refine ⟨m1, m2, ?_⟩
      intro hall e he
      simp only [List.mem_append, List.mem_cons, List.mem_singleton, List.not_mem_nil,
        or_false] at he
      rcases he with (((rfl | rfl | rfl) | he) | he) | rfl
      · rfl
      · rfl
      · rfl
      · cases hD with
        | decrypted pl px3 hd2 =>
          simp only [List.mem_cons, List.mem_singleton, List.not_mem_nil, or_false] at he
          rcases he with rfl | rfl | rfl <;> rfl
      · exact m3 hall e he
      · rfl
  obtain ⟨m1, m2, m3⟩ := main
  refine ⟨m1, m3, ?_⟩
  intro k1 hk
  have hpos := stopIndex_pos J (replies T) ir.KeysBase64.length (by simp [hk])
  rw [m1, hk]
  rw [hk] at hpos
  obtain ⟨n, hn⟩ : ∃ n, stopIndex J (replies T) [k1].length = n + 1 :=
    ⟨stopIndex J (replies T) [k1].length - 1, by omega⟩
  rw [hn]
  simp [unsealRequestOf]

theorem unsealVault_submits_until_stop_witness :
    (∀ ur, json.reference.MarshalUnsealRequest ur = .ok (json.unsealRequestText ur)) ∧
      decryptedTo json.reference
        ((unsealVault json.reference "bucket").run (sysWorld twoSharesEnv) holdingTwoShares).trace
        { Keys := [ascii "a", ascii "b"], KeysBase64 := [ascii "YQ==", ascii "Yg=="],
          RootToken := ascii "r" } = true ∧
      (∀ r ∈ replies
          ((unsealVault json.reference "bucket").run (sysWorld twoSharesEnv)
            holdingTwoShares).trace,
        vaultReply json.reference r = true) ∧
      submitted
          ((unsealVault json.reference "bucket").run (sysWorld twoSharesEnv)
            holdingTwoShares).trace =
        ([ascii "YQ==", ascii "Yg=="].take
          (stopIndex json.reference
            (replies ((unsealVault json.reference "bucket").run (sysWorld twoSharesEnv)
              holdingTwoShares).trace) 2)).map
          (fun key => { Method := "PUT", URL := unsealURL,
                        Body := json.unsealRequestText { Key := key, Reset := false } }) :=
  ⟨fun _ => rfl, by decide, by decide,
    (unsealVault_submits_until_stop json.reference "bucket" (sysWorld twoSharesEnv)
      holdingTwoShares
      { Keys := [ascii "a", ascii "b"], KeysBase64 := [ascii "YQ==", ascii "Yg=="],
        RootToken := ascii "r" }
      json.unsealRequestText (fun _ => rfl) (by decide) (by decide)).1⟩

/-- C6: in every run of `unseal` in which reading `keys.json` fails (the reader cannot
be opened, the object being absent or the store unreachable, or reading it returns an
error), the run makes no call to the key-management service and submits no request
to the vault. -/
theorem unsealVault_get_failure (J : JSON) (bucketName : String) {σ : Type}
    (w : World σ) (s : σ)
    (hget : getFails ((unsealVault J bucketName).run w s).trace = true) :
    ∀ e ∈ ((unsealVault J bucketName).run w s).trace,
      e.isKMS = false ∧ e.isSubmit = false := by
  have h := unsealVault_run J bucketName w s
  generalize ((unsealVault J bucketName).run w s).trace = T at h hget
  cases h with
  | newReaderError e => simp [Event.isKMS, Event.isSubmit]
  | readError e closed => simp [Event.isKMS, Event.isSubmit]
  | openFailed data D closed hD =>
    exfalso
    have hD2 := any_getFailure_false D (fun e he => (hD.only_kms_log e he).1)
    simp [getFails, List.any_append, Event.isGetFailure, hD2] at hget
  | unmarshalError data D px e closed hD hu =>
    exfalso
    have hD2 := any_getFailure_false D (fun e he => (hD.only_kms_log e he).1)
    simp [getFails, List.any_append, Event.isGetFailure, hD2] at hget
  | looped data D px ir L closed hD hu hL =>
    exfalso
    have hD2 := any_getFailure_false D (fun e he => (hD.only_kms_log e he).1)
    have hL2 := any_getFailure_false L hL.not_storage
    simp [getFails, List.any_append, Event.isGetFailure, hD2, hL2] at hget

theorem unsealVault_get_failure_witness :
    getFails
        ((unsealVault json.reference "bucket").run (sysWorld scenarioEnv) Sys.initial).trace =
        true ∧
      ∀ e ∈ ((unsealVault json.reference "bucket").run (sysWorld scenarioEnv) Sys.initial).trace,
        e.isKMS = false ∧ e.isSubmit = false :=
  ⟨by decide,
    unsealVault_get_failure json.reference "bucket" (sysWorld scenarioEnv) Sys.initial
      (by decide)⟩

/-! ## Envelope encryption -/

/-- C4: in a world whose key-management service is consistent (and whose client can
be built), if sealing the bytes `P` in `initialize` returns the ciphertext `c`, then
opening `c` in `unseal`, from any state, returns exactly `P`: the base64 decoding of
the service's decrypted text recovers the bytes that were sealed. -/
theorem envelope_roundtrip {σ : Type} (w : World σ) (hcons : w.kmsConsistent)
    (havail : w.kmsAvailable) (P c : Bytes) (s s2 : σ)
    (hseal : ((initialize_encrypt P).run w s).value = some c) :
    ((unseal_decrypt c).run w s2).value = some P := by
  have henc : ∃ s3, (w.handle s3 (.kmsEncrypt keyName (base64.EncodeToString P))).1 = .ok c := by
    simp only [initialize_encrypt, say] at hseal
    rcases h1 : w.handle s .googleDefaultClient with ⟨(_ | e1), s1⟩
    · simp only [Prog.run, h1] at hseal
      rcases h2 : w.handle s1 .cloudkmsNew with ⟨(_ | e2), s3⟩
      · simp only [h2] at hseal
        rcases h4 : w.handle (w.handle s3 (.log "Encrypting Vault init keys")).2
          (.kmsEncrypt keyName (base64.EncodeToString P)) with ⟨(c2 | e4), s5⟩
        · simp only [h4, Prog.run, Option.some.injEq] at hseal
          exact ⟨_, by rw [h4, hseal]⟩
        · simp [h4, Prog.run] at hseal
      · simp [h2, Prog.run] at hseal
    · simp [h1, Prog.run] at hseal
  obtain ⟨s3, henc⟩ := henc
  have hdec := hcons s3 keyName _ c henc
  simp only [unseal_decrypt, say]
  have a1 := (havail s2).1
  rcases h1 : w.handle s2 .googleDefaultClient with ⟨r1, s4⟩
  rw [h1] at a1
  simp only [] at a1
  subst a1
  simp only [Prog.run, h1]
  have a2 := (havail s4).2
  rcases h2 : w.handle s4 .cloudkmsNew with ⟨r2, s5⟩
  rw [h2] at a2
  simp only [] at a2
  subst a2
  simp only [h2]
  have a3 := hdec s5
  rcases h3 : w.handle s5 (.kmsDecrypt keyName c) with ⟨r3, s6⟩
  rw [h3] at a3
  simp only [] at a3
  subst a3
  simp only [h3, base64.decode_encode, Prog.run]

theorem envelope_roundtrip_witness :
    (sysWorld scenarioEnv).kmsConsistent ∧ (sysWorld scenarioEnv).kmsAvailable ∧
      ((initialize_encrypt scenarioBody).run (sysWorld scenarioEnv) Sys.initial).value =
        some scenarioCiphertext ∧
      ((unseal_decrypt scenarioCiphertext).run (sysWorld scenarioEnv) holdingScenario).value =
        some scenarioBody :=
  ⟨scenarioEnv_kmsConsistent, scenarioEnv_kmsAvailable, by decide,
    envelope_roundtrip (sysWorld scenarioEnv) scenarioEnv_kmsConsistent
      scenarioEnv_kmsAvailable scenarioBody scenarioCiphertext Sys.initial holdingScenario
      (by decide)⟩

/-- C7: a failure of the key-management service aborts the workflow.  In every run of
`initialize` in which sealing fails, the run opens no writer, writes nothing and
closes nothing on the object store; in every run of `unseal` in which opening fails
(the service returns an error, or its plaintext is not valid base64), the run
submits no request to the vault. -/
theorem envelope_failure_aborts (J : JSON) (bucketName : String) {σ : Type}
    (w : World σ) (s1 s2 : σ) :
    (sealFails ((initializeVault J bucketName).run w s1).trace = true →
      ∀ e ∈ ((initializeVault J bucketName).run w s1).trace, e.isPut = false) ∧
    (openFails ((unsealVault J bucketName).run w s2).trace = true →
      ∀ e ∈ ((unsealVault J bucketName).run w s2).trace, e.isSubmit = false) := by
  constructor
  · intro hf
    have h := initializeVault_run J bucketName w s1
    generalize ((initializeVault J bucketName).run w s1).trace = T at h hf
    cases h with
    | marshalError e hm => simp [Event.isPut]
    | doError data e hm => simp [Event.isPut]
    | readError data c e hm => simp [Event.isPut]
    | nonOK data c bd hm hc => simp [Event.isPut]
    | sealFailed data bd E hm hE => cases hE <;> simp [Event.isPut]
    | written data bd E c W hm hE hW =>
      exfalso
      have hW2 := any_sealFailure_false W hW.write_not_kms
      cases hE
      simp [sealFails, List.any_append, Event.isSealFailure, hW2] at hf
  · intro hf
    have h := unsealVault_run J bucketName w s2
    generalize ((unsealVault J bucketName).run w s2).trace = T at h hf
    cases h with
    | newReaderError e => simp [Event.isSubmit]
    | readError e closed => simp [Event.isSubmit]
    | openFailed data D closed hD =>
      have hD2 := hD.only_kms_log
      intro e he
      simp only [List.mem_append, List.mem_cons, List.mem_singleton, List.not_mem_nil,
        or_false] at he
      rcases he with ((rfl | rfl | rfl) | he) | rfl
      · rfl
      · rfl
      · rfl
      · exact (hD2 e he).2.1
      · rfl
    | unmarshalError data D px e closed hD hu =>
      have hD2 := hD.only_kms_log
      intro e he
      simp only [List.mem_append, List.mem_cons, List.mem_singleton, List.not_mem_nil,
        or_false] at he
      rcases he with ((rfl | rfl | rfl) | he) | rfl | rfl
      · rfl
      · rfl
      · rfl
      · exact (hD2 e he).2.1
      · rfl
      · rfl
    | looped data D px ir L closed hD hu hL =>
      exfalso
      have hL2 := any_openFailure_false L hL.loop_not_kms
      cases hD with
      | decrypted p px2 hd =>
        simp [openFails, List.any_append, Event.isOpenFailure, hL2, hd] at hf

theorem envelope_failure_aborts_witness :
    sealFails
        ((initializeVault json.reference "bucket").run (sysWorld kmsFailsEnv) Sys.initial).trace =
        true ∧
      openFails
        ((unsealVault json.reference "bucket").run (sysWorld kmsFailsEnv) holdingScenario).trace =
        true ∧
      (∀ e ∈ ((initializeVault json.reference "bucket").run (sysWorld kmsFailsEnv)
          Sys.initial).trace, e.isPut = false) ∧
      (∀ e ∈ ((unsealVault json.reference "bucket").run (sysWorld kmsFailsEnv)
          holdingScenario).trace, e.isSubmit = false) :=
  ⟨by decide, by decide,
    (envelope_failure_aborts json.reference "bucket" (sysWorld kmsFailsEnv) Sys.initial
      holdingScenario).1 (by decide),
    (envelope_failure_aborts json.reference "bucket" (sysWorld kmsFailsEnv) Sys.initial
      holdingScenario).2 (by decide)⟩

/-! ## The stored object and the state of the vault -/

/-- C8 (as the code has it): in every state the modelled environment reaches by poll
cycles from an uninitialised vault and an empty store, whatever fails on the way, if
the object `keys.json` exists in the store then the vault has been initialised. -/
theorem keys_imply_initialized (J : JSON) (bucketName : String) (env : Env) (n : Nat) :
    ((Sys.after J bucketName env n).store bucketName keysObject).isSome = true →
      (Sys.after J bucketName env n).initialized = true :=
  mainLoop_keysImplyInitialized J bucketName env n Sys.initial (by
    intro h; simp [Sys.initial] at h)

theorem keys_imply_initialized_witness :
    ((Sys.after json.reference "bucket" scenarioEnv 1).store "bucket" keysObject).isSome = true ∧
      (Sys.after json.reference "bucket" scenarioEnv 1).initialized = true :=
  ⟨by decide, keys_imply_initialized json.reference "bucket" scenarioEnv 1 (by decide)⟩

/-- C8 fails as stated: when the call of `Encrypt` fails in the first poll cycle, the
vault has been initialised (its init request was answered with 200), `initialize` has
logged the error and returned, and the store holds no object `keys.json`. -/
theorem keys_iff_initialized_fails :
    ((mainLoop json.reference "bucket" 1).run (sysWorld encryptFailsEnv) Sys.initial).trace =
        [.httpGet healthURL (.ok ⟨501, .ok []⟩),
         .log "Vault is not initialized. Initializing...",
         .enter .initializer,
         .httpDo ⟨"PUT", initURL, initRequestText⟩ (.ok ⟨200, .ok scenarioBody⟩),
         .googleDefaultClient (.ok ()),
         .cloudkmsNew (.ok ()),
         .log "Encrypting Vault init keys",
         .kmsEncrypt keyName (base64.EncodeToString scenarioBody) (.error faultErr),
         .log faultErr,
         .log "Next check in 10 seconds.",
         .sleep 10] ∧
      (Sys.after json.reference "bucket" encryptFailsEnv 1).initialized = true ∧
      (Sys.after json.reference "bucket" encryptFailsEnv 1).store "bucket" keysObject = none ∧
      ¬ (((Sys.after json.reference "bucket" encryptFailsEnv 1).store "bucket"
            keysObject).isSome = true ↔
          (Sys.after json.reference "bucket" encryptFailsEnv 1).initialized = true) := by
  decide

/-! ## The end-to-end scenario -/

/-- C9: the end-to-end scenario.  From an uninitialised vault and an empty store, with
no faults, a vault that answers init with the scenario body and is unsealed by one
valid share, a consistent key-management service, and a JSON codec that reads the
scenario body as keys `["a"]`, base64 keys `["YQ=="]` and root token `r`, the first two
poll cycles run as follows.  Cycle one: health is 501, `initialize` gets status 200
with the body, `Encrypt` is called with the base64 text of exactly that body, and the
ciphertext is written once to `keys.json`.  Cycle two: health is 503, `unseal` reads
that ciphertext, `Decrypt` returns the text that was encrypted, exactly one request,
for the share `YQ==`, is submitted, the reply carries `sealed = false`, and the run
logs `Unseal complete.` and stops. -/
theorem scenario_trace (J : JSON) (bucketName : String) (env : Env)
    (initReq unsealReq : Bytes) (unr : unsealResponse)
    (hfails : ∀ t, env.fails t = false)
    (hbody : env.initBody = scenarioBody)
    (hthreshold : env.threshold = 1)
    (hkms : ∀ x, env.decrypt (env.encrypt x) = .ok x)
    (hinit : J.MarshalInitRequest { SecretShares := 1, SecretThreshold := 1 } = .ok initReq)
    (hparse : J.UnmarshalInitResponse scenarioBody =
      .ok { Keys := [ascii "a"], KeysBase64 := [ascii "YQ=="], RootToken := ascii "r" })
    (hshare : J.MarshalUnsealRequest { Key := ascii "YQ==", Reset := false } = .ok unsealReq)
    (hvalid : env.validShare unsealReq = true)
    (hreply : J.UnmarshalUnsealResponse (env.replyBody ⟨false, 1, 1, 0⟩) = .ok unr)
    (hunsealed : unr.Sealed = false) :
    ((mainLoop J bucketName 2).run (sysWorld env) Sys.initial).trace =
      [.httpGet healthURL (.ok ⟨501, .ok []⟩),
       .log "Vault is not initialized. Initializing...",
       .enter .initializer,
       .httpDo ⟨"PUT", initURL, initReq⟩ (.ok ⟨200, .ok scenarioBody⟩),
       .googleDefaultClient (.ok ()),
       .cloudkmsNew (.ok ()),
       .log "Encrypting Vault init keys",
       .kmsEncrypt keyName (base64.EncodeToString scenarioBody)
         (.ok (env.encrypt (base64.EncodeToString scenarioBody))),
       .storageNewWriter bucketName "keys.json",
       .storageWrite bucketName "keys.json" (env.encrypt (base64.EncodeToString scenarioBody))
         (.ok (env.encrypt (base64.EncodeToString scenarioBody)).length),
       .log (keysWrittenLine bucketName),
       .log "Initialization complete.",
       .storageWriterClose bucketName "keys.json" (.ok ()),
       .log "Next check in 10 seconds.",
       .sleep 10,
       .httpGet healthURL (.ok ⟨503, .ok []⟩),
       .log "Vault is sealed. Unsealing...",
       .enter .unsealer,
       .storageNewReader bucketName "keys.json" (.ok ()),
       .storageReadAll bucketName "keys.json"
         (.ok (env.encrypt (base64.EncodeToString scenarioBody))),
       .googleDefaultClient (.ok ()),
       .cloudkmsNew (.ok ()),
       .kmsDecrypt keyName (env.encrypt (base64.EncodeToString scenarioBody))
         (.ok (base64.EncodeToString scenarioBody)),
       .httpDo ⟨"PUT", unsealURL, unsealReq⟩ (.ok ⟨200, .ok (env.replyBody ⟨false, 1, 1, 0⟩)⟩),
       .log "Unseal complete.",
       .storageReaderClose bucketName "keys.json" (.ok ()),
       .log "Next check in 10 seconds.",
       .sleep 10] := by
  simp [mainLoop, pollCycle, dispatch, initializeVault, initialize_encrypt, initialize_write,
    unsealVault, unseal_decrypt, unseal_loop, say, NewRequest, Prog.bind, Prog.run,
    Event.ofOp, sysWorld, sysAnswer, vaultDo, Sys.initial, Sys.health, keysObject,
    hfails, hbody, hthreshold, hkms, hinit, hparse, hshare, hvalid, hreply, hunsealed,
    base64.decode_encode, unsealURL_ne_initURL]

theorem scenario_trace_witness :
    (∀ t, scenarioEnv.fails t = false) ∧ scenarioEnv.initBody = scenarioBody ∧
      scenarioEnv.threshold = 1 ∧ (∀ x, scenarioEnv.decrypt (scenarioEnv.encrypt x) = .ok x) ∧
      json.reference.MarshalInitRequest { SecretShares := 1, SecretThreshold := 1 } =
        .ok initRequestText ∧
      json.reference.UnmarshalInitResponse scenarioBody =
        .ok { Keys := [ascii "a"], KeysBase64 := [ascii "YQ=="], RootToken := ascii "r" } ∧
      json.reference.MarshalUnsealRequest { Key := ascii "YQ==", Reset := false } =
        .ok (ascii "\x7b\"key\":\"YQ==\",\"reset\":false\x7d") ∧
      scenarioEnv.validShare (ascii "\x7b\"key\":\"YQ==\",\"reset\":false\x7d") = true ∧
      json.reference.UnmarshalUnsealResponse (scenarioEnv.replyBody ⟨false, 1, 1, 0⟩) =
        .ok ⟨false, 1, 1, 0⟩ ∧
      ((mainLoop json.reference "bucket" 2).run (sysWorld scenarioEnv) Sys.initial).trace =
        [.httpGet healthURL (.ok ⟨501, .ok []⟩),
         .log "Vault is not initialized. Initializing...",
         .enter .initializer,
         .httpDo ⟨"PUT", initURL, initRequestText⟩ (.ok ⟨200, .ok scenarioBody⟩),
         .googleDefaultClient (.ok ()),
         .cloudkmsNew (.ok ()),
         .log "Encrypting Vault init keys",
         .kmsEncrypt keyName (base64.EncodeToString scenarioBody)
           (.ok (scenarioEnv.encrypt (base64.EncodeToString scenarioBody))),
         .storageNewWriter "bucket" "keys.json",
         .storageWrite "bucket" "keys.json"
           (scenarioEnv.encrypt (base64.EncodeToString scenarioBody))
           (.ok (scenarioEnv.encrypt (base64.EncodeToString scenarioBody)).length),
         .log (keysWrittenLine "bucket"),
         .log "Initialization complete.",
         .storageWriterClose "bucket" "keys.json" (.ok ()),
         .log "Next check in 10 seconds.",
         .sleep 10,
         .httpGet healthURL (.ok ⟨503, .ok []⟩),
         .log "Vault is sealed. Unsealing...",
         .enter .unsealer,
         .storageNewReader "bucket" "keys.json" (.ok ()),
         .storageReadAll "bucket" "keys.json"
           (.ok (scenarioEnv.encrypt (base64.EncodeToString scenarioBody))),
         .googleDefaultClient (.ok ()),
         .cloudkmsNew (.ok ()),
         .kmsDecrypt keyName (scenarioEnv.encrypt (base64.EncodeToString scenarioBody))
           (.ok (base64.EncodeToString scenarioBody)),
         .httpDo ⟨"PUT", unsealURL, ascii "\x7b\"key\":\"YQ==\",\"reset\":false\x7d"⟩
           (.ok ⟨200, .ok (scenarioEnv.replyBody ⟨false, 1, 1, 0⟩)⟩),
         .log "Unseal complete.",
         .storageReaderClose "bucket" "keys.json" (.ok ()),
         .log "Next check in 10 seconds.",
         .sleep 10] :=
  ⟨fun _ => rfl, rfl, rfl, fun x => congrArg Result.ok (List.reverse_reverse x),
    by decide, by decide, by decide, by decide, by decide,
    scenario_trace json.reference "bucket" scenarioEnv initRequestText
      (ascii "\x7b\"key\":\"YQ==\",\"reset\":false\x7d") ⟨false, 1, 1, 0⟩
      (fun _ => rfl) rfl rfl (fun x => congrArg Result.ok (List.reverse_reverse x))
      (by decide) (by decide) (by decide) (by decide) (by decide) rfl⟩

end VaultInit
